import Mathlib

set_option maxRecDepth 100000
set_option maxHeartbeats 1000000

/-!
Verification of the rendering core of ESP8266_TFT_RetroClock
(src/src/main_tft.cpp), as a shallow embedding in Lean.

The framebuffer scr is a 64-byte C array indexed by int expressions, so we
model a byte store over all integer addresses: the source's explicit bounds
guards are then meaningful, and a missing guard would be visible as a write
outside the 64 legal cells.

The headers fonts.h and timezones.h are not part of the provided sources;
definitions that depend on their data are modelled from the spec and carry a
doc comment saying so.
-/

/-- Byte store indexed by integer addresses; models the 64-byte scr array
together with every out-of-range address an unguarded write could hit. -/
def Buf : Type := Int → Nat

/-- Store one byte at an address; models a raw C array store, with no
implicit guard (the guards live in the drawing code, as in the source). -/
def bufSet (s : Buf) (idx : Int) (v : Nat) : Buf :=
  fun k => if k = idx then v else s k

/-- The 64 bytes of the logical framebuffer, in index order. -/
def bufBytes (s : Buf) : List Nat :=
  (List.range 64).map (fun i => s (i : Int))

/-- Two buffers agree on the 64 in-range framebuffer cells. -/
def sameOn64 (s1 s2 : Buf) : Prop :=
  ∀ k : Int, 0 ≤ k → k < 64 → s1 k = s2 k

/-- Read one byte of a font table; models pgm_read_byte at a nonnegative
offset from the font pointer (out-of-table reads return 0). -/
def fontByte (font : List Nat) (i : Nat) : Nat := font.getD i 0

/-- Source clearScreen: zero all 64 framebuffer bytes. -/
def clearScreen (s : Buf) : Buf :=
  fun k => if 0 ≤ k ∧ k < 64 then 0 else s k

/-- Offset walk of the source charWidth loop: starting at offset 4, advance
charIndex times by w * font[1] + 1 where w is the width byte at the current
offset. -/
def charWidthOffset (font : List Nat) : Nat → Nat → Nat
  | 0, offset => offset
  | n + 1, offset => charWidthOffset font n (offset + fontByte font offset * fontByte font 1 + 1)

/-- Source charWidth: 0 for a codepoint outside the font range, else the
width byte found by the offset walk. -/
def charWidth (c : Nat) (font : List Nat) : Nat :=
  let firstChar := fontByte font 2
  let lastChar := fontByte font 3
  if c < firstChar ∨ lastChar < c then 0
  else fontByte font (charWidthOffset font (c - firstChar) 4)

/-- One column write of the source drawCharWithY inner loop: guarded first on
the display column x + i, then on the buffer index. -/
def colWrite (x yPos : Int) (font : List Nat) (base fht8 j i : Nat) (s : Buf) : Buf :=
  if 0 ≤ x + (i : Int) ∧ x + (i : Int) < 32 then
    (if 0 ≤ x + 32 * ((j : Int) + yPos) + (i : Int) ∧ x + 32 * ((j : Int) + yPos) + (i : Int) < 64 then
      bufSet s (x + 32 * ((j : Int) + yPos) + (i : Int)) (fontByte font (base + 1 + fht8 * i + j))
    else s)
  else s

/-- Trailing zero column of drawCharWithY, written at column x + w under the
same pair of guards. -/
def termWrite (x yPos : Int) (j w : Nat) (s : Buf) : Buf :=
  if 0 ≤ x + (w : Int) ∧ x + (w : Int) < 32 then
    (if 0 ≤ x + 32 * ((j : Int) + yPos) + (w : Int) ∧ x + 32 * ((j : Int) + yPos) + (w : Int) < 64 then
      bufSet s (x + 32 * ((j : Int) + yPos) + (w : Int)) 0
    else s)
  else s

/-- Inner i loop of drawCharWithY: columns i, i+1, ... for cnt steps. -/
def drawCols (x yPos : Int) (font : List Nat) (base fht8 j : Nat) : Nat → Nat → Buf → Buf
  | _, 0, s => s
  | i, cnt + 1, s => drawCols x yPos font base fht8 j (i + 1) cnt (colWrite x yPos font base fht8 j i s)

/-- One j iteration of drawCharWithY: w data columns then the terminator. -/
def drawRowJ (x yPos : Int) (font : List Nat) (base fht8 w j : Nat) (s : Buf) : Buf :=
  termWrite x yPos j w (drawCols x yPos font base fht8 j 0 w s)

/-- Outer j loop of drawCharWithY over the fht8 row bands. -/
def drawRows (x yPos : Int) (font : List Nat) (base fht8 w : Nat) : Nat → Nat → Buf → Buf
  | _, 0, s => s
  | j, cnt + 1, s => drawRows x yPos font base fht8 w (j + 1) cnt (drawRowJ x yPos font base fht8 w j s)

/-- Source drawCharWithY: range-check the codepoint, locate the glyph block
at 4 + c * (fht8 * fwd + 1), blit its columns under bounds guards, and
return the glyph's width byte as the advance. -/
def drawCharWithY (x yPos : Int) (c : Nat) (font : List Nat) (s : Buf) : Buf × Nat :=
  let offs := fontByte font 2
  let last := fontByte font 3
  if c < offs ∨ last < c then (s, 0)
  else
    let fwd := fontByte font 0
    let fht := fontByte font 1
    let fht8 := (fht + 7) / 8
    let base := 4 + (c - offs) * (fht8 * fwd + 1)
    let w := fontByte font base
    (drawRows x yPos font base fht8 w 0 fht8 s, w)

/-- Advance width reported by drawCharWithY, as a standalone function of the
codepoint and font only: 0 out of range, else the glyph's width byte. -/
def drawCharW (c : Nat) (font : List Nat) : Nat :=
  if c < fontByte font 2 ∨ fontByte font 3 < c then 0
  else fontByte font (4 + (c - fontByte font 2) * (((fontByte font 1 + 7) / 8) * fontByte font 0 + 1))

lemma drawCharWithY_snd (x yPos : Int) (c : Nat) (font : List Nat) (s : Buf) :
    (drawCharWithY x yPos c font s).2 = drawCharW c font := by
  unfold drawCharWithY drawCharW
  by_cases h : c < fontByte font 2 ∨ fontByte font 3 < c
  · simp [h]
  · simp [h]

lemma drawCharWithY_out_of_range (x yPos : Int) (c : Nat) (font : List Nat) (s : Buf)
    (h : c < fontByte font 2 ∨ fontByte font 3 < c) :
    drawCharWithY x yPos c font s = (s, 0) := by
  unfold drawCharWithY
  simp [h]

lemma charWidth_out_of_range (c : Nat) (font : List Nat)
    (h : c < fontByte font 2 ∨ fontByte font 3 < c) :
    charWidth c font = 0 := by
  unfold charWidth
  simp [h]

/-- Physical TFT operation emitted by the style renderer. -/
inductive TFTOp where
  | fillRect (x y w h : Int) (color : Nat)
  | drawPixel (x y : Int) (color : Nat)
  deriving DecidableEq, Repr

/-- RGB565 color constants from the source defines. -/
def COLOR_RED : Nat := 0xF800

def COLOR_GREEN : Nat := 0x07E0

def COLOR_BLUE : Nat := 0x001F

def COLOR_YELLOW : Nat := 0xFFE0

def COLOR_CYAN : Nat := 0x07FF

def COLOR_MAGENTA : Nat := 0xF81F

def COLOR_WHITE : Nat := 0xFFFF

def COLOR_ORANGE : Nat := 0xFD20

def COLOR_DARK_GRAY : Nat := 0x7BEF

def COLOR_LIGHT_GRAY : Nat := 0xC618

def BG_COLOR : Nat := 0x0000

/-- Source dimRGB565: divide each RGB565 channel by factor + 1 and
recombine, preserving hue. -/
def dimRGB565 (color factor : Nat) : Nat :=
  let r := (color >>> 11) &&& 0x1F
  let g := (color >>> 5) &&& 0x3F
  let b := color &&& 0x1F
  ((r / (factor + 1)) <<< 11) ||| ((g / (factor + 1)) <<< 5) ||| (b / (factor + 1))

/-- The mutable globals of main_tft.cpp read and written by the rendering
core: wall-clock fields, sensor snapshot, display style state, scheduler
state, and the two 64-byte buffers (scr, and refreshAll's static lastScr
together with its firstRun flag). -/
structure ClockState where
  hours : Nat
  hours24 : Nat
  minutes : Nat
  seconds : Nat
  day : Nat
  month : Nat
  year : Nat
  lastSecond : Int
  use24HourFormat : Bool
  sensorAvailable : Bool
  temperature : Int
  humidity : Nat
  pressure : Nat
  useFahrenheit : Bool
  displayStyle : Nat
  ledOnColor : Nat
  ledSurroundColor : Nat
  ledOffColor : Nat
  surroundMatchesLED : Bool
  forceFullRedraw : Bool
  currentMode : Nat
  lastModeSwitch : Nat
  currentTimezone : Nat
  scr : Buf
  lastScr : Buf
  firstRun : Bool

/-- Startup values of the globals (C zero-initialization for the buffers,
explicit initializers for the rest). -/
def initialState : ClockState where
  hours := 0
  hours24 := 0
  minutes := 0
  seconds := 0
  day := 1
  month := 1
  year := 2025
  lastSecond := -1
  use24HourFormat := false
  sensorAvailable := false
  temperature := 0
  humidity := 0
  pressure := 0
  useFahrenheit := false
  displayStyle := 1
  ledOnColor := COLOR_RED
  ledSurroundColor := COLOR_DARK_GRAY
  ledOffColor := 0x2000
  surroundMatchesLED := false
  forceFullRedraw := false
  currentMode := 0
  lastModeSwitch := 0
  currentTimezone := 0
  scr := fun _ => 0
  lastScr := fun _ => 0
  firstRun := true

/-- Horizontal centering offset of the matrix area: the TFT reports 320
pixels wide in rotation 3 and the matrix area is LED_SIZE * 32 = 320. -/
def screenOffsetX : Int := if ((320 - 320) / 2 : Int) > 0 then (320 - 320) / 2 else 0

/-- Vertical centering offset: TFT height 240, matrix area 164. -/
def screenOffsetY : Int := if ((240 - 164) / 2 : Int) > 0 then (240 - 164) / 2 else 0

/-- Source drawLEDPixel: guarded on the 32x16 logical range, then renders
one logical pixel either as a flat block (style 0) or as a circular LED
with bezel (style 1), emitting physical TFT operations in source order. -/
def drawLEDPixel (st : ClockState) (x y : Int) (lit : Bool) : List TFTOp :=
  if x < 0 ∨ 32 ≤ x ∨ y < 0 ∨ 16 ≤ y then []
  else
    let matrixGap : Int := if 8 ≤ y then 4 else 0
    let screenX := screenOffsetX + x * 10
    let screenY := screenOffsetY + y * 10 + matrixGap
    if st.displayStyle = 0 then
      [TFTOp.fillRect screenX screenY 10 10 (if lit then st.ledOnColor else BG_COLOR)]
    else if lit then
      TFTOp.fillRect screenX screenY 10 10 st.ledSurroundColor ::
        (List.range 10).flatMap (fun py =>
          (List.range 10).map (fun px =>
            let dx : Int := (px : Int) * 2 - 9
            let dy : Int := (py : Int) * 2 - 9
            let distSq := dx * dx + dy * dy
            let pixelColor :=
              if distSq ≤ 18 then st.ledOnColor
              else if distSq ≤ 38 then st.ledOnColor
              else if distSq ≤ 62 then st.ledSurroundColor
              else BG_COLOR
            TFTOp.drawPixel (screenX + (px : Int)) (screenY + (py : Int)) pixelColor))
    else
      let offHousing := dimRGB565 st.ledSurroundColor 7
      let offLED := 0x1800
      TFTOp.fillRect screenX screenY 10 10 BG_COLOR ::
        (List.range 8).flatMap (fun py0 =>
          (List.range 8).flatMap (fun px0 =>
            let px : Int := (px0 : Int) + 1
            let py : Int := (py0 : Int) + 1
            let dx := (px - 1) * 2 - 7
            let dy := (py - 1) * 2 - 7
            let distSq := dx * dx + dy * dy
            if distSq ≤ 42 then [TFTOp.drawPixel (screenX + px) (screenY + py) offLED]
            else if distSq ≤ 58 then [TFTOp.drawPixel (screenX + px) (screenY + py) offHousing]
            else []))

/-- The four font tables from fonts.h used by the layout routines, passed
explicitly since the header is not among the provided sources. -/
structure Fonts where
  digits5x8rn : List Nat
  digits3x5 : List Nat
  font3x7 : List Nat
  digits5x16rn : List Nat

/-- Modelled from the spec: fonts.h is missing from the provided sources.
A table is a header [fwd, fht, first, last] followed by one block of
1 + fht8 * fwd bytes per codepoint (width byte then column data), matching
the fixed-stride indexing of drawCharWithY. digits5x8rn covers codepoints
48..58: digits of width 5 (per the 5x8 name) and a colon of width 1 (the
spec says hiding the colon reserves an equivalent blank advance, and the
layout reserves 2 columns, one of which is inter-glyph spacing). Bitmap
bytes are placeholders; no claim depends on them. -/
def digits5x8rnSpec : List Nat :=
  [5, 8, 48, 58] ++
    (List.range 10).flatMap (fun d => [5, 0x3E, 0x41 + d, 0x49, 0x45, 0x3E]) ++
    [1, 0x36, 0, 0, 0, 0]

/-- Modelled from the spec: fonts.h is missing. Digits of width 3 per the
3x5 name, codepoints 48..57. -/
def digits3x5Spec : List Nat :=
  [3, 5, 48, 57] ++ (List.range 10).flatMap (fun d => [3, 0x1F, 0x11 + d, 0x1F])

/-- Modelled from the spec: fonts.h is missing. Text font of width 3 per
the 3x7 name, covering codepoints 32..90 (space is narrow, width 1). -/
def font3x7Spec : List Nat :=
  [3, 7, 32, 90] ++
    (List.range 59).flatMap (fun k => if k = 0 then [1, 0, 0, 0] else [3, 1 + k, 0x2A, 0x15])

/-- Modelled from the spec: fonts.h is missing. Large digits of width 5 and
height 16 (two row bands, fht8 = 2), codepoints 48..58, colon width 1. -/
def digits5x16rnSpec : List Nat :=
  [5, 16, 48, 58] ++
    (List.range 10).flatMap (fun d => [5, 0x7F, 0xFE, 0x01 + d, 0x80, 0x01, 0x80, 0x01, 0x80, 0x7F, 0xFE]) ++
    [1, 0x18, 0x18, 0, 0, 0, 0, 0, 0, 0, 0]

/-- The modelled font environment. -/
def specFonts : Fonts where
  digits5x8rn := digits5x8rnSpec
  digits3x5 := digits3x5Spec
  font3x7 := font3x7Spec
  digits5x16rn := digits5x16rnSpec

/-- Decimal expansion modelling sprintf with the plain d conversion; the
fuel argument makes the recursion structural. -/
def fmtDecAux : Nat → Nat → List Nat
  | 0, _ => []
  | fuel + 1, n => if n < 10 then [48 + n] else fmtDecAux fuel (n / 10) ++ [48 + n % 10]

/-- ASCII digits of a nonnegative value, as sprintf d prints them. -/
def fmtDec (n : Nat) : List Nat := fmtDecAux (n + 1) n

/-- ASCII rendering of a signed int under the d conversion. -/
def fmtDecInt (i : Int) : List Nat :=
  if i < 0 then 45 :: fmtDec (-i).toNat else fmtDec i.toNat

/-- sprintf 02d: zero-padded to two digits. -/
def fmt02 (n : Nat) : List Nat := if n < 10 then [48, 48 + n] else fmtDec n

/-- One recorded call to drawCharWithY: pen column, row band, codepoint and
a small identifier naming the font argument (0 = digits5x8rn,
1 = digits3x5, 2 = font3x7, 3 = digits5x16rn). -/
structure DrawCall where
  x : Int
  yPos : Int
  c : Nat
  fid : Nat
  deriving DecidableEq, Repr

/-- Cursor state threaded through a layout loop: framebuffer, pen column,
and the trace of glyph calls made so far. -/
structure SegSt where
  buf : Buf
  x : Int
  tr : List DrawCall

/-- Character loop of the form: x += drawCharWithY(...); then one spacing
column between characters only (hours and minutes loops). -/
def segPlain (fid : Nat) (font : List Nat) (yPos : Int) : List Nat → SegSt → SegSt
  | [], st => st
  | [c], st =>
    let r := drawCharWithY st.x yPos c font st.buf
    { buf := r.1, x := st.x + (r.2 : Int), tr := st.tr ++ [⟨st.x, yPos, c, fid⟩] }
  | c :: c2 :: rest, st =>
    let r := drawCharWithY st.x yPos c font st.buf
    segPlain fid font yPos (c2 :: rest)
      { buf := r.1, x := st.x + (r.2 : Int) + 1, tr := st.tr ++ [⟨st.x, yPos, c, fid⟩] }

/-- Character loop guarded by x < 29 per character, with inter-character
spacing guarded by x < 32 (Time+Environment seconds and bottom row). -/
def segGuard29 (fid : Nat) (font : List Nat) (yPos : Int) : List Nat → SegSt → SegSt
  | [], st => st
  | c :: rest, st =>
    if st.x < 29 then
      let r := drawCharWithY st.x yPos c font st.buf
      let x1 := st.x + (r.2 : Int)
      segGuard29 fid font yPos rest
        { buf := r.1, x := if rest ≠ [] ∧ x1 < 32 then x1 + 1 else x1,
          tr := st.tr ++ [⟨st.x, yPos, c, fid⟩] }
    else segGuard29 fid font yPos rest st

/-- Character loop guarded by x < 29 per character, with spacing also
guarded by x < 29 (Large Time and Time+Date seconds loops). -/
def segGuard29b (fid : Nat) (font : List Nat) (yPos : Int) : List Nat → SegSt → SegSt
  | [], st => st
  | c :: rest, st =>
    if st.x < 29 then
      let r := drawCharWithY st.x yPos c font st.buf
      let x1 := st.x + (r.2 : Int)
      segGuard29b fid font yPos rest
        { buf := r.1, x := if rest ≠ [] ∧ x1 < 29 then x1 + 1 else x1,
          tr := st.tr ++ [⟨st.x, yPos, c, fid⟩] }
    else segGuard29b fid font yPos rest st

/-- Character loop of the date row: x += drawCharWithY(...) + 1 for every
character, unconditionally. -/
def segDate (fid : Nat) (font : List Nat) (yPos : Int) : List Nat → SegSt → SegSt
  | [], st => st
  | c :: rest, st =>
    let r := drawCharWithY st.x yPos c font st.buf
    segDate fid font yPos rest
      { buf := r.1, x := st.x + (r.2 : Int) + 1, tr := st.tr ++ [⟨st.x, yPos, c, fid⟩] }

/-- Hour value the layout routines print, honoring the 12/24-hour flag. -/
def displayHoursOf (st : ClockState) : Nat :=
  if st.use24HourFormat then st.hours24 else st.hours

/-- Source guard in displayTimeAndTemp: in 24-hour mode with hours24 at 10
or more there is no room for the seconds glyphs. -/
def canShowSeconds (st : ClockState) : Bool :=
  !(st.use24HourFormat && decide (10 ≤ st.hours24))

/-- Blinking colon step shared by the layout routines: when showDots, draw
the colon and advance by its width plus extra; otherwise reserve a hidden
blank advance. -/
def colonStep (fid : Nat) (font : List Nat) (extra hidden : Int) (showDots : Prop)
    [Decidable showDots] (st : SegSt) : SegSt :=
  if showDots then
    let r := drawCharWithY st.x 0 58 font st.buf
    { buf := r.1, x := st.x + (r.2 : Int) + extra, tr := st.tr ++ [⟨st.x, 0, 58, fid⟩] }
  else { st with x := st.x + hidden }

/-- Seconds block of the Time+Environment row: skipped entirely unless
canShowSeconds; a 1-column gap, a fit check (3 px times 2 plus spacing),
then the small-font loop. -/
def ttSecondsBlock (F : Fonts) (st : ClockState) (a : SegSt) : SegSt :=
  if canShowSeconds st then
    let s4 : SegSt := { a with x := a.x + 1 }
    if s4.x + 7 ≤ 32 then segGuard29 1 F.digits3x5 0 (fmt02 st.seconds) s4 else s4
  else a

/-- Top (time) row of displayTimeAndTemp: hour digits, blinking colon
(blank advance of 2 reserved when hidden), minutes, and the seconds block
guarded by canShowSeconds and the fit checks. -/
def ttRow0 (F : Fonts) (st : ClockState) (b : Buf) : SegSt :=
  ttSecondsBlock F st
    (segPlain 0 F.digits5x8rn 0 (fmt02 st.minutes)
      (colonStep 0 F.digits5x8rn 1 2 (st.seconds % 2 = 0)
        (segPlain 0 F.digits5x8rn 0 (fmtDec (displayHoursOf st))
          { buf := b, x := 0, tr := [] })))

/-- Bottom row text of displayTimeAndTemp: temperature and humidity, or the
fixed no-sensor string. -/
def ttRow1Text (st : ClockState) : List Nat :=
  if st.sensorAvailable then
    let displayTemp : Int :=
      if st.useFahrenheit then (st.temperature * 9).tdiv 5 + 32 else st.temperature
    let tempUnit : Nat := if st.useFahrenheit then 70 else 67
    (84 :: fmtDecInt displayTemp) ++ [tempUnit, 32, 72] ++ fmtDec st.humidity ++ [37]
  else [78, 79, 32, 83, 69, 78, 83, 79, 82]

/-- Bottom (environment) row of displayTimeAndTemp. -/
def ttRow1 (F : Fonts) (st : ClockState) (b : Buf) : SegSt :=
  segGuard29 2 F.font3x7 1 (ttRow1Text st) { buf := b, x := 0, tr := [] }

/-- Source displayTimeAndTemp: clear, lay out the time row then the
environment row; yields the new state and the trace of glyph calls. -/
def displayTimeAndTemp (F : Fonts) (st : ClockState) : ClockState × List DrawCall :=
  let r0 := ttRow0 F st (clearScreen st.scr)
  let r1 := ttRow1 F st r0.buf
  ({ st with scr := r1.buf }, r0.tr ++ r1.tr)

/-- The single row of displayTimeLarge: large hour digits and minutes with
a blinking colon (blank advance of 1 when hidden), then small seconds. -/
def tlRow (F : Fonts) (st : ClockState) (b : Buf) : SegSt :=
  let s3 := segPlain 3 F.digits5x16rn 0 (fmt02 st.minutes)
    (colonStep 3 F.digits5x16rn 0 1 (st.seconds % 2 = 0)
      (segPlain 3 F.digits5x16rn 0 (fmtDec (displayHoursOf st))
        { buf := b, x := if 9 < displayHoursOf st then 0 else 3, tr := [] }))
  segGuard29b 2 F.font3x7 0 (fmt02 st.seconds) { s3 with x := s3.x + 1 }

/-- Source displayTimeLarge. -/
def displayTimeLarge (F : Fonts) (st : ClockState) : ClockState × List DrawCall :=
  let r := tlRow F st (clearScreen st.scr)
  ({ st with scr := r.buf }, r.tr)

/-- Top (time) row of displayTimeAndDate: like the Time+Environment time
row but with the seconds loop spacing guarded at 29. -/
def tdRow0 (F : Fonts) (st : ClockState) (b : Buf) : SegSt :=
  let s3 := segPlain 0 F.digits5x8rn 0 (fmt02 st.minutes)
    (colonStep 0 F.digits5x8rn 1 2 (st.seconds % 2 = 0)
      (segPlain 0 F.digits5x8rn 0 (fmtDec (displayHoursOf st))
        { buf := b, x := 0, tr := [] }))
  segGuard29b 1 F.digits3x5 0 (fmt02 st.seconds) { s3 with x := s3.x + 1 }

/-- Bottom (date) row of displayTimeAndDate: DD/MM/YY starting at x = 2. -/
def tdRow1 (F : Fonts) (st : ClockState) (b : Buf) : SegSt :=
  segDate 2 F.font3x7 1
    (fmt02 st.day ++ [47] ++ fmt02 st.month ++ [47] ++ fmt02 (st.year % 100))
    { buf := b, x := 2, tr := [] }

/-- Source displayTimeAndDate. -/
def displayTimeAndDate (F : Fonts) (st : ClockState) : ClockState × List DrawCall :=
  let r0 := tdRow0 F st (clearScreen st.scr)
  let r1 := tdRow1 F st r0.buf
  ({ st with scr := r1.buf }, r0.tr ++ r1.tr)

/-- Source switch on currentMode invoking the active layout routine (no
default case: any other mode value draws nothing). -/
def runCurrentModeDisplay (F : Fonts) (st : ClockState) : ClockState :=
  match st.currentMode with
  | 0 => (displayTimeAndTemp F st).1
  | 1 => (displayTimeLarge F st).1
  | 2 => (displayTimeAndDate F st).1
  | _ => st

/-- Accumulator of one refreshAll pass: the tracking buffer, the physical
operations emitted so far, and the indices of the cells repainted. -/
structure RefreshAcc where
  last : Buf
  ops : List TFTOp
  redrawn : List Nat

/-- Buffer index of one (row, displayX) cell: displayX + row * LINE_WIDTH. -/
def cellIdx (cell : Nat × Nat) : Int := (cell.2 : Int) + (cell.1 : Int) * 32

/-- Cell traversal order of refreshAll: row outer, displayX inner. -/
def cellList : List (Nat × Nat) :=
  (List.range 2).flatMap (fun row => (List.range 32).map (fun x => (row, x)))

/-- Physical operations for one repainted cell: one drawLEDPixel call per
bit of the cell byte, at displayY = row * 8 + bitPos. -/
def cellOps (st : ClockState) (cell : Nat × Nat) (pixelByte : Nat) : List TFTOp :=
  (List.range 8).flatMap (fun bitPos =>
    drawLEDPixel st (cell.2 : Int) ((cell.1 : Int) * 8 + (bitPos : Int)) (pixelByte.testBit bitPos))

/-- One cell of the refreshAll loop: redraw when firstRun is set or the
byte differs from the tracking buffer, then record the byte. -/
def refreshStep (st : ClockState) (firstRun : Bool) (acc : RefreshAcc) (cell : Nat × Nat) : RefreshAcc :=
  if 0 ≤ cellIdx cell ∧ cellIdx cell < 64 then
    let pixelByte := st.scr (cellIdx cell)
    if firstRun = true ∨ pixelByte ≠ acc.last (cellIdx cell) then
      { last := bufSet acc.last (cellIdx cell) pixelByte,
        ops := acc.ops ++ cellOps st cell pixelByte,
        redrawn := acc.redrawn ++ [(cellIdx cell).toNat] }
    else acc
  else acc

/-- Source refreshAll with FAST_REFRESH enabled: honor forceFullRedraw by
invalidating the tracking buffer to 0xFF and treating the pass as a first
run (clearing the flag), diff the 64 cells, then clear firstRun. Returns
the updated state, the physical operations, and the repainted cells. -/
def refreshAll (st : ClockState) : ClockState × List TFTOp × List Nat :=
  let last0 : Buf :=
    if st.forceFullRedraw then (fun k => if 0 ≤ k ∧ k < 64 then 0xFF else st.lastScr k)
    else st.lastScr
  let firstRun0 : Bool := if st.forceFullRedraw then true else st.firstRun
  let force0 : Bool := if st.forceFullRedraw then false else st.forceFullRedraw
  let acc := cellList.foldl (refreshStep st firstRun0) { last := last0, ops := [], redrawn := [] }
  ({ st with lastScr := acc.last, firstRun := false, forceFullRedraw := force0 }, acc.ops, acc.redrawn)

/-- Wall-clock fields delivered by localtime_r, treated as external input. -/
structure TmInfo where
  tmHour : Nat
  tmMin : Nat
  tmSec : Nat
  tmMday : Nat
  tmMon : Nat
  tmYear : Nat

/-- Unsigned 32-bit subtraction, as the millis() arithmetic computes it. -/
def usub32 (a b : Nat) : Nat := (a % 2 ^ 32 + (2 ^ 32 - b % 2 ^ 32)) % 2 ^ 32

/-- Source hour conversion in updateTime and syncNTP: tm_hour % 12 with 0
mapped to 12. -/
def hoursFrom24 (h : Nat) : Nat := if h % 12 = 0 then 12 else h % 12

/-- Result of one updateTime call: the new state, which layout routine (if
any) was invoked, given as its mode index, and the operations emitted. -/
structure TickResult where
  st : ClockState
  invoked : Option Nat
  ops : List TFTOp

/-- Source updateTime: early-return while epoch time is unset (before the
first NTP sync); otherwise load the wall-clock tuple, redraw through the
current mode when the second field changed, then auto-advance the mode
when more than MODE_SWITCH_INTERVAL (5000) ms elapsed since last switch. -/
def updateTime (F : Fonts) (now : Nat) (tm : TmInfo) (millisNow : Nat) (st0 : ClockState) : TickResult :=
  if now < 24 * 3600 then { st := st0, invoked := none, ops := [] }
  else
    let st1 : ClockState := { st0 with
      hours := hoursFrom24 tm.tmHour
      hours24 := tm.tmHour
      minutes := tm.tmMin
      seconds := tm.tmSec
      day := tm.tmMday
      month := tm.tmMon + 1
      year := tm.tmYear + 1900 }
    let r2 : ClockState × Option Nat × List TFTOp :=
      if (tm.tmSec : Int) ≠ st1.lastSecond then
        let st2 := { st1 with lastSecond := (tm.tmSec : Int) }
        let st3 := runCurrentModeDisplay F st2
        let r := refreshAll st3
        (r.1, some st2.currentMode, r.2.1)
      else (st1, none, [])
    let st4 := r2.1
    let st5 :=
      if 5000 < usub32 millisNow st4.lastModeSwitch then
        { st4 with currentMode := (st4.currentMode + 1) % 3, lastModeSwitch := millisNow % 2 ^ 32 }
      else st4
    { st := st5, invoked := r2.2.1, ops := r2.2.2 }

/-- Result of one web handler invocation: new state, TFT operations, the
repainted cells of its render (empty if it did not render), and the HTTP
status of its response. -/
structure HandlerResult where
  st : ClockState
  ops : List TFTOp
  redrawn : List Nat
  response : Nat

/-- Source /temperature handler: with a mode argument present, toggle the
unit and immediately rerun the current layout routine and refreshAll; it
never touches forceFullRedraw. Always answers a 302 redirect. -/
def handleTemperature (F : Fonts) (hasMode : Bool) (st : ClockState) : HandlerResult :=
  if hasMode then
    let st1 := { st with useFahrenheit := !st.useFahrenheit }
    let st2 := runCurrentModeDisplay F st1
    let r := refreshAll st2
    { st := r.1, ops := r.2.1, redrawn := r.2.2, response := 302 }
  else { st := st, ops := [], redrawn := [], response := 302 }

/-- Source /timeformat handler: toggle the 12/24 flag, set forceFullRedraw,
then rerun the current layout routine and refreshAll. -/
def handleTimeFormat (F : Fonts) (hasMode : Bool) (st : ClockState) : HandlerResult :=
  if hasMode then
    let st1 := { st with use24HourFormat := !st.use24HourFormat, forceFullRedraw := true }
    let st2 := runCurrentModeDisplay F st1
    let r := refreshAll st2
    { st := r.1, ops := r.2.1, redrawn := r.2.2, response := 302 }
  else { st := st, ops := [], redrawn := [], response := 302 }

/-- LED color switch of the /style handler; any index outside 0..7 falls
through to the default case, COLOR_RED, the first enumerated option. -/
def ledColorFromIdx (idx : Int) : Nat :=
  if idx = 0 then COLOR_RED
  else if idx = 1 then COLOR_GREEN
  else if idx = 2 then COLOR_BLUE
  else if idx = 3 then COLOR_YELLOW
  else if idx = 4 then COLOR_CYAN
  else if idx = 5 then COLOR_MAGENTA
  else if idx = 6 then COLOR_WHITE
  else if idx = 7 then COLOR_ORANGE
  else COLOR_RED

/-- Surround color switch of the /style handler, returning the color and
the match-LED flag; index 7 means match the LED color; anything outside
0..7 falls through to COLOR_WHITE, the first enumerated option. -/
def surroundFromIdx (idx : Int) (ledOn : Nat) : Nat × Bool :=
  if idx = 0 then (COLOR_WHITE, false)
  else if idx = 1 then (COLOR_LIGHT_GRAY, false)
  else if idx = 2 then (COLOR_DARK_GRAY, false)
  else if idx = 3 then (COLOR_RED, false)
  else if idx = 4 then (COLOR_GREEN, false)
  else if idx = 5 then (COLOR_BLUE, false)
  else if idx = 6 then (COLOR_YELLOW, false)
  else if idx = 7 then (ledOn, true)
  else (COLOR_WHITE, false)

/-- Source /style handler: optional style toggle, LED color index and
surround color index; when anything changed, clear the physical screen,
set forceFullRedraw, rerun the current layout routine and refreshAll. -/
def handleStyle (F : Fonts) (modeToggle : Bool) (ledcolor surroundcolor : Option Int) (st : ClockState) : HandlerResult :=
  let st1 :=
    if modeToggle then { st with displayStyle := if st.displayStyle = 0 then 1 else 0 } else st
  let st2 :=
    match ledcolor with
    | some idx =>
      let onC := ledColorFromIdx idx
      { st1 with ledOnColor := onC, ledOffColor := onC >>> 3,
                 ledSurroundColor := if st1.surroundMatchesLED then onC else st1.ledSurroundColor }
    | none => st1
  let st3 :=
    match surroundcolor with
    | some idx =>
      let p := surroundFromIdx idx st2.ledOnColor
      { st2 with ledSurroundColor := p.1, surroundMatchesLED := p.2 }
    | none => st2
  let changed := modeToggle || ledcolor.isSome || surroundcolor.isSome
  if changed then
    let st4 := { st3 with forceFullRedraw := true }
    let st5 := runCurrentModeDisplay F st4
    let r := refreshAll st5
    { st := r.1, ops := TFTOp.fillRect 0 0 320 240 BG_COLOR :: r.2.1, redrawn := r.2.2, response := 302 }
  else { st := st3, ops := [], redrawn := [], response := 302 }

/-- Source /timezone handler: a tz argument is accepted only when the index
is inside the timezone table; otherwise currentTimezone is left unchanged.
The table length comes from timezones.h, which is not among the provided
sources, so it is a parameter here. The accepted path resynchronizes over
NTP, which is external and does not change the fields modelled here. -/
def handleTimezone (tzArg : Option Int) (numTimezones : Nat) (st : ClockState) : HandlerResult :=
  match tzArg with
  | some tz =>
    if 0 ≤ tz ∧ tz < (numTimezones : Int) then
      { st := { st with currentTimezone := tz.toNat }, ops := [], redrawn := [], response := 302 }
    else { st := st, ops := [], redrawn := [], response := 302 }
  | none => { st := st, ops := [], redrawn := [], response := 302 }

lemma drawCharWithY_in_range (x yPos : Int) (c : Nat) (font : List Nat) (s : Buf)
    (h : ¬(c < fontByte font 2 ∨ fontByte font 3 < c)) :
    drawCharWithY x yPos c font s =
      (drawRows x yPos font
        (4 + (c - fontByte font 2) * (((fontByte font 1 + 7) / 8) * fontByte font 0 + 1))
        ((fontByte font 1 + 7) / 8)
        (fontByte font (4 + (c - fontByte font 2) * (((fontByte font 1 + 7) / 8) * fontByte font 0 + 1)))
        0 ((fontByte font 1 + 7) / 8) s,
       fontByte font (4 + (c - fontByte font 2) * (((fontByte font 1 + 7) / 8) * fontByte font 0 + 1))) := by
  unfold drawCharWithY
  rw [if_neg h]

lemma drawCharW_in_range (c : Nat) (font : List Nat)
    (h : ¬(c < fontByte font 2 ∨ fontByte font 3 < c)) :
    drawCharW c font =
      fontByte font (4 + (c - fontByte font 2) * (((fontByte font 1 + 7) / 8) * fontByte font 0 + 1)) := by
  unfold drawCharW
  rw [if_neg h]

lemma bufSet_ne (s : Buf) (idx k : Int) (v : Nat) (h : k ≠ idx) : bufSet s idx v k = s k := by
  unfold bufSet
  rw [if_neg h]

lemma colWrite_changes (x yPos : Int) (font : List Nat) (base fht8 j i : Nat) (s : Buf) (k : Int)
    (h : colWrite x yPos font base fht8 j i s k ≠ s k) :
    0 ≤ k ∧ k < 64 ∧ 0 ≤ x + (i : Int) ∧ x + (i : Int) < 32 ∧
      k = x + 32 * ((j : Int) + yPos) + (i : Int) := by
  unfold colWrite at h
  by_cases h1 : 0 ≤ x + (i : Int) ∧ x + (i : Int) < 32
  · rw [if_pos h1] at h
    by_cases h2 : 0 ≤ x + 32 * ((j : Int) + yPos) + (i : Int) ∧
        x + 32 * ((j : Int) + yPos) + (i : Int) < 64
    · rw [if_pos h2] at h
      by_cases h3 : k = x + 32 * ((j : Int) + yPos) + (i : Int)
      · exact ⟨by omega, by omega, h1.1, h1.2, h3⟩
      · exact absurd (bufSet_ne s _ k _ h3) h
    · rw [if_neg h2] at h
      exact absurd rfl h
  · rw [if_neg h1] at h
    exact absurd rfl h

lemma termWrite_changes (x yPos : Int) (j w : Nat) (s : Buf) (k : Int)
    (h : termWrite x yPos j w s k ≠ s k) :
    0 ≤ k ∧ k < 64 ∧ 0 ≤ x + (w : Int) ∧ x + (w : Int) < 32 ∧
      k = x + 32 * ((j : Int) + yPos) + (w : Int) := by
  unfold termWrite at h
  by_cases h1 : 0 ≤ x + (w : Int) ∧ x + (w : Int) < 32
  · rw [if_pos h1] at h
    by_cases h2 : 0 ≤ x + 32 * ((j : Int) + yPos) + (w : Int) ∧
        x + 32 * ((j : Int) + yPos) + (w : Int) < 64
    · rw [if_pos h2] at h
      by_cases h3 : k = x + 32 * ((j : Int) + yPos) + (w : Int)
      · exact ⟨by omega, by omega, h1.1, h1.2, h3⟩
      · exact absurd (bufSet_ne s _ k _ h3) h
    · rw [if_neg h2] at h
      exact absurd rfl h
  · rw [if_neg h1] at h
    exact absurd rfl h

lemma drawCols_changes (x yPos : Int) (font : List Nat) (base fht8 j : Nat) :
    ∀ (cnt i : Nat) (s : Buf) (k : Int),
      drawCols x yPos font base fht8 j i cnt s k ≠ s k →
      ∃ i2 : Nat, i ≤ i2 ∧ i2 < i + cnt ∧ 0 ≤ k ∧ k < 64 ∧
        0 ≤ x + (i2 : Int) ∧ x + (i2 : Int) < 32 ∧
        k = x + 32 * ((j : Int) + yPos) + (i2 : Int) := by
  intro cnt
  induction cnt with
  | zero => intro i s k h; exact absurd rfl h
  | succ n ih =>
    intro i s k h
    simp only [drawCols] at h
    by_cases hmid : colWrite x yPos font base fht8 j i s k = s k
    · have h2 : drawCols x yPos font base fht8 j (i + 1) n
          (colWrite x yPos font base fht8 j i s) k ≠
          colWrite x yPos font base fht8 j i s k := by
        rw [hmid]
        exact h
      obtain ⟨i2, hi1, hi2, rest⟩ := ih (i + 1) _ k h2
      exact ⟨i2, by omega, by omega, rest⟩
    · obtain ⟨hk1, hk2, hc1, hc2, heq⟩ := colWrite_changes x yPos font base fht8 j i s k hmid
      exact ⟨i, le_refl i, by omega, hk1, hk2, hc1, hc2, heq⟩

lemma drawRowJ_changes (x yPos : Int) (font : List Nat) (base fht8 w j : Nat) (s : Buf) (k : Int)
    (h : drawRowJ x yPos font base fht8 w j s k ≠ s k) :
    ∃ i2 : Nat, i2 ≤ w ∧ 0 ≤ k ∧ k < 64 ∧ 0 ≤ x + (i2 : Int) ∧ x + (i2 : Int) < 32 ∧
      k = x + 32 * ((j : Int) + yPos) + (i2 : Int) := by
  unfold drawRowJ at h
  by_cases hmid : drawCols x yPos font base fht8 j 0 w s k = s k
  · have h2 : termWrite x yPos j w (drawCols x yPos font base fht8 j 0 w s) k ≠
        drawCols x yPos font base fht8 j 0 w s k := by
      rw [hmid]
      exact h
    obtain ⟨hk1, hk2, hc1, hc2, heq⟩ := termWrite_changes x yPos j w _ k h2
    exact ⟨w, le_refl w, hk1, hk2, hc1, hc2, heq⟩
  · obtain ⟨i2, _, hi2, rest⟩ := drawCols_changes x yPos font base fht8 j w 0 s k hmid
    exact ⟨i2, by omega, rest⟩

lemma drawRows_changes (x yPos : Int) (font : List Nat) (base fht8 w : Nat) :
    ∀ (cnt j : Nat) (s : Buf) (k : Int),
      drawRows x yPos font base fht8 w j cnt s k ≠ s k →
      ∃ j2 i2 : Nat, j ≤ j2 ∧ j2 < j + cnt ∧ i2 ≤ w ∧ 0 ≤ k ∧ k < 64 ∧
        0 ≤ x + (i2 : Int) ∧ x + (i2 : Int) < 32 ∧
        k = x + 32 * ((j2 : Int) + yPos) + (i2 : Int) := by
  intro cnt
  induction cnt with
  | zero => intro j s k h; exact absurd rfl h
  | succ n ih =>
    intro j s k h
    simp only [drawRows] at h
    by_cases hmid : drawRowJ x yPos font base fht8 w j s k = s k
    · have h2 : drawRows x yPos font base fht8 w (j + 1) n
          (drawRowJ x yPos font base fht8 w j s) k ≠
          drawRowJ x yPos font base fht8 w j s k := by
        rw [hmid]
        exact h
      obtain ⟨j2, i2, hj1, hj2, rest⟩ := ih (j + 1) _ k h2
      exact ⟨j2, i2, by omega, by omega, rest⟩
    · obtain ⟨i2, hi, rest⟩ := drawRowJ_changes x yPos font base fht8 w j s k hmid
      exact ⟨j, i2, le_refl j, by omega, hi, rest⟩

lemma drawCharWithY_changes (x yPos : Int) (c : Nat) (font : List Nat) (s : Buf) (k : Int)
    (h : (drawCharWithY x yPos c font s).1 k ≠ s k) :
    0 ≤ k ∧ k < 64 ∧ ∃ i j : Nat, i ≤ drawCharW c font ∧ j < (fontByte font 1 + 7) / 8 ∧
      0 ≤ x + (i : Int) ∧ x + (i : Int) < 32 ∧
      k = x + 32 * ((j : Int) + yPos) + (i : Int) := by
  by_cases hr : c < fontByte font 2 ∨ fontByte font 3 < c
  · rw [drawCharWithY_out_of_range x yPos c font s hr] at h
    exact absurd rfl h
  · rw [drawCharWithY_in_range x yPos c font s hr] at h
    obtain ⟨j2, i2, _, hj2, hi2, hk1, hk2, hc1, hc2, heq⟩ :=
      drawRows_changes x yPos font _ _ _ _ 0 s k h
    rw [drawCharW_in_range c font hr]
    exact ⟨hk1, hk2, i2, j2, hi2, by omega, hc1, hc2, heq⟩

/-- C5: writes outside the 32 by 16 logical range are dropped without any
physical operation and without a fault; a glyph draw changes the
framebuffer only at in-bounds addresses whose column x + i is one of the
glyph's own in-range columns, so out-of-range columns are skipped one at a
time and the enclosing routine proceeds. -/
theorem claim_C5 :
    (∀ (st : ClockState) (x y : Int) (lit : Bool),
      (x < 0 ∨ 32 ≤ x ∨ y < 0 ∨ 16 ≤ y) → drawLEDPixel st x y lit = []) ∧
    (∀ (x yPos : Int) (c : Nat) (font : List Nat) (s : Buf) (k : Int),
      (drawCharWithY x yPos c font s).1 k ≠ s k →
      0 ≤ k ∧ k < 64 ∧ ∃ i j : Nat, i ≤ drawCharW c font ∧ j < (fontByte font 1 + 7) / 8 ∧
        0 ≤ x + (i : Int) ∧ x + (i : Int) < 32 ∧
        k = x + 32 * ((j : Int) + yPos) + (i : Int)) := by
  constructor
  · intro st x y lit h
    unfold drawLEDPixel
    rw [if_pos h]
  · exact drawCharWithY_changes

/-- Witness for C5: a fully out-of-range cell produces no operation, and a
concrete in-range glyph draw that does change address 0 satisfies the
characterization. -/
theorem claim_C5_witness :
    drawLEDPixel initialState (-1) 0 true = [] ∧
      (0 ≤ (0 : Int) ∧ (0 : Int) < 64 ∧ ∃ i j : Nat, i ≤ drawCharW 48 digits5x8rnSpec ∧
        j < (fontByte digits5x8rnSpec 1 + 7) / 8 ∧ 0 ≤ (0 : Int) + (i : Int) ∧
        (0 : Int) + (i : Int) < 32 ∧ (0 : Int) = 0 + 32 * ((j : Int) + 0) + (i : Int)) :=
  ⟨claim_C5.1 initialState (-1) 0 true (by decide),
   claim_C5.2 0 0 48 digits5x8rnSpec (fun _ => 0) 0 (by decide)⟩

/-- C4: a codepoint outside the font's declared range draws nothing,
returns advance 0, and the width query also returns 0. -/
theorem claim_C4 (x yPos : Int) (c : Nat) (font : List Nat) (s : Buf)
    (h : c < fontByte font 2 ∨ fontByte font 3 < c) :
    (drawCharWithY x yPos c font s).1 = s ∧ (drawCharWithY x yPos c font s).2 = 0 ∧
      charWidth c font = 0 := by
  rw [drawCharWithY_out_of_range x yPos c font s h]
  exact ⟨rfl, rfl, charWidth_out_of_range c font h⟩

/-- Witness for C4 at codepoint 65, outside the digit font range 48..58. -/
theorem claim_C4_witness :
    (65 < fontByte digits5x8rnSpec 2 ∨ fontByte digits5x8rnSpec 3 < 65) ∧
      ((drawCharWithY 3 0 65 digits5x8rnSpec (fun _ => 0)).1 = (fun _ => 0) ∧
        (drawCharWithY 3 0 65 digits5x8rnSpec (fun _ => 0)).2 = 0 ∧
        charWidth 65 digits5x8rnSpec = 0) :=
  ⟨by decide, claim_C4 3 0 65 digits5x8rnSpec (fun _ => 0) (by decide)⟩

/-- C10: for an in-range codepoint the returned advance is the glyph's
declared width byte, an expression in the codepoint and font only, hence
independent of x, yPos and of how many columns the bounds checks clip. -/
theorem claim_C10 (x yPos : Int) (c : Nat) (font : List Nat) (s : Buf)
    (h1 : fontByte font 2 ≤ c) (h2 : c ≤ fontByte font 3) :
    (drawCharWithY x yPos c font s).2 =
      fontByte font (4 + (c - fontByte font 2) * (((fontByte font 1 + 7) / 8) * fontByte font 0 + 1)) := by
  rw [drawCharWithY_snd]
  exact drawCharW_in_range c font (by omega)

/-- Witness for C10: drawing the digit 0 at x = 100, where every column is
clipped, still reports the declared width 5. -/
theorem claim_C10_witness :
    (fontByte digits5x8rnSpec 2 ≤ 48 ∧ 48 ≤ fontByte digits5x8rnSpec 3) ∧
      (drawCharWithY 100 0 48 digits5x8rnSpec (fun _ => 0)).2 =
        fontByte digits5x8rnSpec
          (4 + (48 - fontByte digits5x8rnSpec 2) *
            (((fontByte digits5x8rnSpec 1 + 7) / 8) * fontByte digits5x8rnSpec 0 + 1)) :=
  ⟨⟨by decide, by decide⟩,
   claim_C10 100 0 48 digits5x8rnSpec (fun _ => 0) (by decide) (by decide)⟩

lemma bufSet_self (s : Buf) (idx : Int) (v : Nat) : bufSet s idx v idx = v := by
  unfold bufSet
  rw [if_pos rfl]

lemma refreshStep_pos (st : ClockState) (firstRun : Bool) (acc : RefreshAcc) (cell : Nat × Nat)
    (hin : 0 ≤ cellIdx cell ∧ cellIdx cell < 64)
    (hcond : firstRun = true ∨ st.scr (cellIdx cell) ≠ acc.last (cellIdx cell)) :
    refreshStep st firstRun acc cell =
      { last := bufSet acc.last (cellIdx cell) (st.scr (cellIdx cell)),
        ops := acc.ops ++ cellOps st cell (st.scr (cellIdx cell)),
        redrawn := acc.redrawn ++ [(cellIdx cell).toNat] } := by
  unfold refreshStep
  rw [if_pos hin, if_pos hcond]

lemma refreshStep_neg (st : ClockState) (firstRun : Bool) (acc : RefreshAcc) (cell : Nat × Nat)
    (hin : 0 ≤ cellIdx cell ∧ cellIdx cell < 64)
    (hcond : ¬(firstRun = true ∨ st.scr (cellIdx cell) ≠ acc.last (cellIdx cell))) :
    refreshStep st firstRun acc cell = acc := by
  unfold refreshStep
  rw [if_pos hin, if_neg hcond]

lemma refreshFold_spec (st : ClockState) (firstRun : Bool) :
    ∀ (cells : List (Nat × Nat)),
      cells.Pairwise (fun a b => cellIdx a ≠ cellIdx b) →
      (∀ c ∈ cells, 0 ≤ cellIdx c ∧ cellIdx c < 64) →
      ∀ (last : Buf) (ops : List TFTOp) (red : List Nat),
        (cells.foldl (refreshStep st firstRun) ⟨last, ops, red⟩).redrawn =
          red ++ (cells.filter
            (fun c => decide (firstRun = true ∨ st.scr (cellIdx c) ≠ last (cellIdx c)))).map
            (fun c => (cellIdx c).toNat) ∧
        (cells.foldl (refreshStep st firstRun) ⟨last, ops, red⟩).ops =
          ops ++ (cells.filter
            (fun c => decide (firstRun = true ∨ st.scr (cellIdx c) ≠ last (cellIdx c)))).flatMap
            (fun c => cellOps st c (st.scr (cellIdx c))) ∧
        (∀ k : Int, (∀ c ∈ cells, cellIdx c ≠ k) →
          (cells.foldl (refreshStep st firstRun) ⟨last, ops, red⟩).last k = last k) ∧
        (∀ c ∈ cells,
          (cells.foldl (refreshStep st firstRun) ⟨last, ops, red⟩).last (cellIdx c) =
            st.scr (cellIdx c)) := by
  intro cells
  induction cells with
  | nil =>
    intro _ _ last ops red
    refine ⟨by simp, by simp, fun k _ => rfl, fun c hc => absurd hc (List.not_mem_nil c)⟩
  | cons c cs ih =>
    intro hpw hin last ops red
    obtain ⟨hpwc, hpcs⟩ := List.pairwise_cons.mp hpw
    have hinc := hin c (List.mem_cons_self c cs)
    have hincs : ∀ c2 ∈ cs, 0 ≤ cellIdx c2 ∧ cellIdx c2 < 64 :=
      fun c2 h2 => hin c2 (List.mem_cons_of_mem c h2)
    by_cases hcond : firstRun = true ∨ st.scr (cellIdx c) ≠ last (cellIdx c)
    · rw [List.foldl_cons, refreshStep_pos st firstRun _ c hinc hcond]
      obtain ⟨h1, h2, h3, h4⟩ := ih hpcs hincs
        (bufSet last (cellIdx c) (st.scr (cellIdx c)))
        (ops ++ cellOps st c (st.scr (cellIdx c)))
        (red ++ [(cellIdx c).toNat])
      have hfc : cs.filter (fun c2 => decide (firstRun = true ∨
            st.scr (cellIdx c2) ≠ bufSet last (cellIdx c) (st.scr (cellIdx c)) (cellIdx c2))) =
          cs.filter (fun c2 => decide (firstRun = true ∨ st.scr (cellIdx c2) ≠ last (cellIdx c2))) := by
        apply List.filter_congr
        intro c2 hc2
        rw [bufSet_ne last (cellIdx c) (cellIdx c2) _ (Ne.symm (hpwc c2 hc2))]
      rw [hfc] at h1 h2
      refine ⟨?_, ?_, ?_, ?_⟩
      · rw [h1, List.filter_cons_of_pos (by simpa using hcond)]
        simp
      · rw [h2, List.filter_cons_of_pos (by simpa using hcond)]
        simp
      · intro k hk
        rw [h3 k (fun c2 hc2 => hk c2 (List.mem_cons_of_mem c hc2))]
        exact bufSet_ne last (cellIdx c) k _ (Ne.symm (hk c (List.mem_cons_self c cs)))
      · intro c2 hc2
        rcases List.mem_cons.mp hc2 with he | hm
        · subst he
          rw [h3 (cellIdx c2) (fun c3 hc3 => Ne.symm (hpwc c3 hc3))]
          exact bufSet_self last (cellIdx c2) _
        · exact h4 c2 hm
    · rw [List.foldl_cons, refreshStep_neg st firstRun _ c hinc hcond]
      obtain ⟨h1, h2, h3, h4⟩ := ih hpcs hincs last ops red
      have hcf : ¬(firstRun = true) ∧ st.scr (cellIdx c) = last (cellIdx c) := by
        push_neg at hcond
        exact hcond
      refine ⟨?_, ?_, ?_, ?_⟩
      · rw [h1, List.filter_cons_of_neg (by simpa using hcond)]
      · rw [h2, List.filter_cons_of_neg (by simpa using hcond)]
      · intro k hk
        exact h3 k (fun c2 hc2 => hk c2 (List.mem_cons_of_mem c hc2))
      · intro c2 hc2
        rcases List.mem_cons.mp hc2 with he | hm
        · subst he
          rw [h3 (cellIdx c2) (fun c3 hc3 => Ne.symm (hpwc c3 hc3))]
          exact hcf.2.symm
        · exact h4 c2 hm

lemma cellList_pairwise : cellList.Pairwise (fun a b => cellIdx a ≠ cellIdx b) := by decide

lemma cellList_inRange : ∀ c ∈ cellList, 0 ≤ cellIdx c ∧ cellIdx c < 64 := by decide

lemma exists_cell (k : Int) (h1 : 0 ≤ k) (h2 : k < 64) : ∃ c ∈ cellList, cellIdx c = k := by
  refine ⟨(k.toNat / 32, k.toNat % 32), ?_, ?_⟩
  · unfold cellList
    simp only [List.mem_flatMap, List.mem_map, List.mem_range]
    refine ⟨k.toNat / 32, by omega, ⟨k.toNat % 32, by omega, rfl⟩⟩
  · unfold cellIdx
    simp only
    omega

lemma refreshAll_scr (st : ClockState) : (refreshAll st).1.scr = st.scr := rfl

lemma refreshAll_firstRun (st : ClockState) : (refreshAll st).1.firstRun = false := rfl

lemma refreshAll_force (st : ClockState) : (refreshAll st).1.forceFullRedraw = false := by
  show (if st.forceFullRedraw then false else st.forceFullRedraw) = false
  cases h : st.forceFullRedraw <;> simp

lemma refreshAll_lastScr (st : ClockState) : sameOn64 (refreshAll st).1.lastScr st.scr := by
  unfold refreshAll
  intro k h1 h2
  obtain ⟨c, hc, hk⟩ := exists_cell k h1 h2
  subst hk
  simp only
  exact (refreshFold_spec st _ cellList cellList_pairwise cellList_inRange _ [] []).2.2.2 c hc

lemma refreshAll_ops_of_clean (st : ClockState) (hforce : st.forceFullRedraw = false)
    (hfr : st.firstRun = false) (hsame : sameOn64 st.scr st.lastScr) :
    (refreshAll st).2.1 = [] := by
  unfold refreshAll
  rw [hforce, hfr]
  simp only [if_neg (by simp : ¬(false = true))]
  have h2 := (refreshFold_spec st false cellList cellList_pairwise cellList_inRange
    st.lastScr [] []).2.1
  rw [h2]
  have hnil : cellList.filter
      (fun c => decide (false = true ∨ st.scr (cellIdx c) ≠ st.lastScr (cellIdx c))) = [] := by
    apply List.filter_eq_nil_iff.mpr
    intro c hc
    have hin := cellList_inRange c hc
    simp only [decide_eq_true_eq]
    push_neg
    exact ⟨by simp, hsame (cellIdx c) hin.1 hin.2⟩
  rw [hnil]
  simp

/-- C2: after every render pass the snapshot buffer equals the logical
framebuffer on all 64 cells, and a second render on the resulting state
(unchanged framebuffer, force flag clear) emits zero physical operations. -/
theorem claim_C2 (st : ClockState) :
    sameOn64 (refreshAll st).1.lastScr (refreshAll st).1.scr ∧
      (refreshAll (refreshAll st).1).2.1 = [] := by
  have hl := refreshAll_lastScr st
  constructor
  · rw [refreshAll_scr]
    exact hl
  · apply refreshAll_ops_of_clean
    · exact refreshAll_force st
    · exact refreshAll_firstRun st
    · rw [refreshAll_scr]
      intro k h1 h2
      exact (hl k h1 h2).symm

lemma refreshAll_redrawn_force (st : ClockState) (hforce : st.forceFullRedraw = true) :
    (refreshAll st).2.2 = cellList.map (fun c => (cellIdx c).toNat) := by
  unfold refreshAll
  rw [hforce]
  simp only [eq_self_iff_true, if_true]
  have h1 := (refreshFold_spec st true cellList cellList_pairwise cellList_inRange
    (fun k => if 0 ≤ k ∧ k < 64 then 0xFF else st.lastScr k) [] []).1
  rw [h1]
  have hall : cellList.filter (fun c => decide (true = true ∨ st.scr (cellIdx c) ≠
      (fun k => if 0 ≤ k ∧ k < 64 then 0xFF else st.lastScr k) (cellIdx c))) = cellList := by
    apply List.filter_eq_self.mpr
    intro c _
    simp
  rw [hall]
  simp

lemma refreshAll_redrawn_noforce (st : ClockState) (hforce : st.forceFullRedraw = false)
    (hfr : st.firstRun = false) :
    (refreshAll st).2.2 = (cellList.filter
      (fun c => decide (st.scr (cellIdx c) ≠ st.lastScr (cellIdx c)))).map
      (fun c => (cellIdx c).toNat) := by
  unfold refreshAll
  rw [hforce, hfr]
  simp only [if_neg (by simp : ¬(false = true))]
  have h1 := (refreshFold_spec st false cellList cellList_pairwise cellList_inRange
    st.lastScr [] []).1
  rw [h1]
  have hsamep : cellList.filter
      (fun c => decide (false = true ∨ st.scr (cellIdx c) ≠ st.lastScr (cellIdx c))) =
      cellList.filter (fun c => decide (st.scr (cellIdx c) ≠ st.lastScr (cellIdx c))) := by
    apply List.filter_congr
    intro c _
    simp
  rw [hsamep]
  simp

lemma cellList_length : cellList.length = 64 := by decide

lemma runCurrentModeDisplay_force (F : Fonts) (st : ClockState) :
    (runCurrentModeDisplay F st).forceFullRedraw = st.forceFullRedraw := by
  unfold runCurrentModeDisplay
  split <;> rfl

lemma runCurrentModeDisplay_firstRun (F : Fonts) (st : ClockState) :
    (runCurrentModeDisplay F st).firstRun = st.firstRun := by
  unfold runCurrentModeDisplay
  split <;> rfl

lemma runCurrentModeDisplay_lastScr (F : Fonts) (st : ClockState) :
    (runCurrentModeDisplay F st).lastScr = st.lastScr := by
  unfold runCurrentModeDisplay
  split <;> rfl

lemma runCurrentModeDisplay_currentMode (F : Fonts) (st : ClockState) :
    (runCurrentModeDisplay F st).currentMode = st.currentMode := by
  unfold runCurrentModeDisplay
  split <;> rfl

lemma handleStyle_changed_redrawn (F : Fonts) (modeToggle : Bool) (lc sc : Option Int)
    (st : ClockState) (hch : (modeToggle || lc.isSome || sc.isSome) = true) :
    (handleStyle F modeToggle lc sc st).redrawn.length = 64 := by
  unfold handleStyle
  rw [if_pos hch]
  show (refreshAll (runCurrentModeDisplay F _)).2.2.length = 64
  rw [refreshAll_redrawn_force _ (by rw [runCurrentModeDisplay_force])]
  rw [List.length_map, cellList_length]

/-- C1 (amended): the style toggle, LED color, surround color and time
format handlers set forceFullRedraw and their immediate render pass then
repaints all 64 cells regardless of prior snapshot contents; the
temperature-unit handler also triggers an immediate layout plus render
pass, but does not set forceFullRedraw: from a state with the flag clear
and past the first run, its render repaints exactly the cells whose new
framebuffer byte differs from the snapshot (possibly none). -/
theorem claim_C1_amended (F : Fonts) (st : ClockState) :
    (handleTimeFormat F true st).redrawn.length = 64 ∧
    (handleStyle F true none none st).redrawn.length = 64 ∧
    (∀ i : Int, (handleStyle F false (some i) none st).redrawn.length = 64) ∧
    (∀ i : Int, (handleStyle F false none (some i) st).redrawn.length = 64) ∧
    (st.forceFullRedraw = false → st.firstRun = false →
      (handleTemperature F true st).st.forceFullRedraw = false ∧
      (handleTemperature F true st).redrawn =
        (cellList.filter (fun c =>
          decide ((runCurrentModeDisplay F { st with useFahrenheit := !st.useFahrenheit }).scr
            (cellIdx c) ≠ st.lastScr (cellIdx c)))).map (fun c => (cellIdx c).toNat)) := by
  refine ⟨?_, ?_, ?_, ?_, ?_⟩
  · show (refreshAll (runCurrentModeDisplay F
      { st with use24HourFormat := !st.use24HourFormat, forceFullRedraw := true })).2.2.length = 64
    rw [refreshAll_redrawn_force _ (by rw [runCurrentModeDisplay_force])]
    rw [List.length_map, cellList_length]
  · exact handleStyle_changed_redrawn F true none none st (by simp)
  · intro i
    exact handleStyle_changed_redrawn F false (some i) none st (by simp)
  · intro i
    exact handleStyle_changed_redrawn F false none (some i) st (by simp)
  · intro h1 h2
    constructor
    · show (refreshAll (runCurrentModeDisplay F
        { st with useFahrenheit := !st.useFahrenheit })).1.forceFullRedraw = false
      exact refreshAll_force _
    · show (refreshAll (runCurrentModeDisplay F
        { st with useFahrenheit := !st.useFahrenheit })).2.2 = _
      rw [refreshAll_redrawn_noforce _
        (by rw [runCurrentModeDisplay_force]; exact h1)
        (by rw [runCurrentModeDisplay_firstRun]; exact h2)]
      simp only [runCurrentModeDisplay_lastScr]

/-- Concrete pre-state for C1: the Time+Environment screen (no sensor) has
been laid out and rendered once, so the snapshot matches the framebuffer,
the force flag is clear and the engine is past its first run. -/
def c1PreState : ClockState :=
  (refreshAll (runCurrentModeDisplay specFonts
    { initialState with hours := 3, hours24 := 3, minutes := 12, seconds := 30 })).1

/-- Counterexample to C1 as stated: handling the temperature-unit command
leaves forceFullRedraw clear, and the immediately following render pass
repaints zero cells rather than evaluating and repainting all 64. -/
theorem claim_C1_counterexample :
    (handleTemperature specFonts true c1PreState).st.forceFullRedraw = false ∧
      (handleTemperature specFonts true c1PreState).redrawn.length = 0 := by
  constructor
  · decide
  · decide

/-- Witness for C1 (amended) at the concrete pre-state: the time-format
handler's render repaints all 64 cells, and the temperature handler's
hypotheses (flag clear, past first run) hold and are discharged. -/
theorem claim_C1_amended_witness :
    (handleTimeFormat specFonts true c1PreState).redrawn.length = 64 ∧
      (c1PreState.forceFullRedraw = false ∧ c1PreState.firstRun = false) ∧
      ((handleTemperature specFonts true c1PreState).st.forceFullRedraw = false ∧
        (handleTemperature specFonts true c1PreState).redrawn =
          (cellList.filter (fun c =>
            decide ((runCurrentModeDisplay specFonts
              { c1PreState with useFahrenheit := !c1PreState.useFahrenheit }).scr
              (cellIdx c) ≠ c1PreState.lastScr (cellIdx c)))).map (fun c => (cellIdx c).toNat)) :=
  ⟨(claim_C1_amended specFonts c1PreState).1, ⟨by decide, by decide⟩,
   (claim_C1_amended specFonts c1PreState).2.2.2.2 (by decide) (by decide)⟩

/-- C9 (amended): an out-of-range LED color index falls back to COLOR_RED
and an out-of-range surround color index falls back to COLOR_WHITE, the
first enumerated options; an out-of-range timezone index is ignored,
leaving the current timezone unchanged; in all three cases the handler
still answers its normal 302 redirect, propagating no error. -/
theorem claim_C9_amended (F : Fonts) (st : ClockState) (i : Int) (nTz : Nat)
    (h : i < 0 ∨ 8 ≤ i) :
    (handleStyle F false (some i) none st).st.ledOnColor = COLOR_RED ∧
    (handleStyle F false (some i) none st).response = 302 ∧
    (handleStyle F false none (some i) st).st.ledSurroundColor = COLOR_WHITE ∧
    (handleStyle F false none (some i) st).response = 302 ∧
    ((nTz : Int) ≤ i ∨ i < 0 →
      (handleTimezone (some i) nTz st).st.currentTimezone = st.currentTimezone ∧
      (handleTimezone (some i) nTz st).response = 302) := by
  have hlc : ledColorFromIdx i = COLOR_RED := by
    unfold ledColorFromIdx
    split_ifs <;> first | rfl | omega
  have hsc : ∀ ledOn, surroundFromIdx i ledOn = (COLOR_WHITE, false) := by
    intro ledOn
    unfold surroundFromIdx
    split_ifs <;> first | rfl | omega
  refine ⟨?_, ?_, ?_, ?_, ?_⟩
  · show (refreshAll (runCurrentModeDisplay F _)).1.ledOnColor = COLOR_RED
    have : ∀ st2 : ClockState, (refreshAll st2).1.ledOnColor = st2.ledOnColor := fun _ => rfl
    rw [this]
    have hrm : ∀ st2 : ClockState, (runCurrentModeDisplay F st2).ledOnColor = st2.ledOnColor := by
      intro st2
      unfold runCurrentModeDisplay
      split <;> rfl
    rw [hrm]
    show ledColorFromIdx i = COLOR_RED
    exact hlc
  · rfl
  · show (refreshAll (runCurrentModeDisplay F _)).1.ledSurroundColor = COLOR_WHITE
    have : ∀ st2 : ClockState, (refreshAll st2).1.ledSurroundColor = st2.ledSurroundColor :=
      fun _ => rfl
    rw [this]
    have hrm : ∀ st2 : ClockState,
        (runCurrentModeDisplay F st2).ledSurroundColor = st2.ledSurroundColor := by
      intro st2
      unfold runCurrentModeDisplay
      split <;> rfl
    rw [hrm]
    show (surroundFromIdx i st.ledOnColor).1 = COLOR_WHITE
    rw [hsc]
  · rfl
  · intro h2
    have hred : handleTimezone (some i) nTz st =
        if 0 ≤ i ∧ i < (nTz : Int) then
          { st := { st with currentTimezone := i.toNat }, ops := [], redrawn := [],
            response := 302 }
        else { st := st, ops := [], redrawn := [], response := 302 } := rfl
    rw [hred, if_neg (by omega : ¬(0 ≤ i ∧ i < (nTz : Int)))]
    exact ⟨rfl, rfl⟩

/-- Counterexample to C9 as stated: with 40 timezones (any table length at
most 999 behaves identically) and current timezone 2, the out-of-range
request index 999 does not fall back to the first enumerated option 0; the
handler keeps timezone 2. -/
theorem claim_C9_counterexample :
    (handleTimezone (some 999) 40 { initialState with currentTimezone := 2 }).st.currentTimezone
      = 2 ∧ 2 ≠ 0 := by
  constructor
  · decide
  · decide

/-- Witness for C9 (amended) at index 99, which is outside 0..7 and also
outside a 40-entry timezone table. -/
theorem claim_C9_amended_witness :
    ((99 : Int) < 0 ∨ 8 ≤ (99 : Int)) ∧
      (handleStyle specFonts false (some 99) none initialState).st.ledOnColor = COLOR_RED ∧
      (handleTimezone (some 99) 40 initialState).st.currentTimezone =
        initialState.currentTimezone :=
  ⟨Or.inr (by decide),
   (claim_C9_amended specFonts initialState 99 40 (Or.inr (by decide))).1,
   ((claim_C9_amended specFonts initialState 99 40 (Or.inr (by decide))).2.2.2.2
     (Or.inl (by decide))).1⟩

lemma refreshAll_lastModeSwitch (st : ClockState) :
    (refreshAll st).1.lastModeSwitch = st.lastModeSwitch := rfl

lemma refreshAll_currentMode (st : ClockState) :
    (refreshAll st).1.currentMode = st.currentMode := rfl

lemma runCurrentModeDisplay_lastModeSwitch (F : Fonts) (st : ClockState) :
    (runCurrentModeDisplay F st).lastModeSwitch = st.lastModeSwitch := by
  unfold runCurrentModeDisplay
  split <;> rfl

lemma updateTime_invoked (F : Fonts) (now : Nat) (tm : TmInfo) (ms : Nat) (st : ClockState)
    (hvalid : ¬(now < 24 * 3600)) :
    (updateTime F now tm ms st).invoked =
      if (tm.tmSec : Int) ≠ st.lastSecond then some st.currentMode else none := by
  simp only [updateTime]
  rw [if_neg hvalid]
  by_cases hsec : (tm.tmSec : Int) ≠ st.lastSecond
  · rw [if_pos hsec, if_pos hsec]
  · rw [if_neg hsec, if_neg hsec]

lemma updateTime_mode (F : Fonts) (now : Nat) (tm : TmInfo) (ms : Nat) (st : ClockState)
    (hvalid : ¬(now < 24 * 3600)) :
    (updateTime F now tm ms st).st.currentMode =
      if 5000 < usub32 ms st.lastModeSwitch then (st.currentMode + 1) % 3
      else st.currentMode := by
  simp only [updateTime]
  rw [if_neg hvalid]
  by_cases hsec : (tm.tmSec : Int) ≠ st.lastSecond
  · rw [if_pos hsec]
    simp only [refreshAll_lastModeSwitch, runCurrentModeDisplay_lastModeSwitch,
      refreshAll_currentMode, runCurrentModeDisplay_currentMode]
    by_cases hms : 5000 < usub32 ms st.lastModeSwitch
    · rw [if_pos hms, if_pos hms]
    · rw [if_neg hms, if_neg hms, refreshAll_currentMode, runCurrentModeDisplay_currentMode]
  · rw [if_neg hsec]
    by_cases hms : 5000 < usub32 ms st.lastModeSwitch
    · rw [if_pos hms, if_pos hms]
    · rw [if_neg hms, if_neg hms]

/-- C8: the scheduler starts in mode 0 (Time+Environment); on a tick with
valid epoch time the mode advances to (mode + 1) mod 3 exactly when more
than 5000 ms elapsed since the last switch, never leaves 0..2, and the
layout routine invoked is the one of the pre-switch mode, invoked exactly
when the wall-clock second differs from the previous tick's. -/
theorem claim_C8 (F : Fonts) (now : Nat) (tm : TmInfo) (ms : Nat) (st : ClockState)
    (hvalid : ¬(now < 24 * 3600)) (hmode : st.currentMode < 3) :
    initialState.currentMode = 0 ∧
    (updateTime F now tm ms st).invoked =
      (if (tm.tmSec : Int) ≠ st.lastSecond then some st.currentMode else none) ∧
    (updateTime F now tm ms st).st.currentMode =
      (if 5000 < usub32 ms st.lastModeSwitch then (st.currentMode + 1) % 3
       else st.currentMode) ∧
    (updateTime F now tm ms st).st.currentMode < 3 := by
  refine ⟨rfl, updateTime_invoked F now tm ms st hvalid, updateTime_mode F now tm ms st hvalid, ?_⟩
  rw [updateTime_mode F now tm ms st hvalid]
  by_cases h : 5000 < usub32 ms st.lastModeSwitch
  · rw [if_pos h]
    omega
  · rw [if_neg h]
    exact hmode

/-- Witness for C8 on a concrete synced tick from the startup state. -/
theorem claim_C8_witness :
    (¬(100000 < 24 * 3600) ∧ initialState.currentMode < 3) ∧
      ((updateTime specFonts 100000 ⟨14, 5, 0, 11, 9, 125⟩ 6000 initialState).invoked =
        (if ((0 : Nat) : Int) ≠ initialState.lastSecond then some initialState.currentMode
         else none) ∧
      (updateTime specFonts 100000 ⟨14, 5, 0, 11, 9, 125⟩ 6000 initialState).st.currentMode =
        (if 5000 < usub32 6000 initialState.lastModeSwitch then
          (initialState.currentMode + 1) % 3 else initialState.currentMode) ∧
      (updateTime specFonts 100000 ⟨14, 5, 0, 11, 9, 125⟩ 6000 initialState).st.currentMode < 3) :=
  ⟨⟨by decide, by decide⟩,
   (claim_C8 specFonts 100000 ⟨14, 5, 0, 11, 9, 125⟩ 6000 initialState (by decide) (by decide)).2⟩

/-- Relation between two layout cursor states with equal pen and trace and
framebuffers agreeing on the 64 in-range cells. -/
abbrev segSame (a b : SegSt) : Prop := sameOn64 a.buf b.buf ∧ a.x = b.x ∧ a.tr = b.tr

lemma sameOn64_bufSet {s1 s2 : Buf} (h : sameOn64 s1 s2) (idx : Int) (v : Nat) :
    sameOn64 (bufSet s1 idx v) (bufSet s2 idx v) := by
  intro k h1 h2
  unfold bufSet
  by_cases he : k = idx
  · rw [if_pos he, if_pos he]
  · rw [if_neg he, if_neg he]
    exact h k h1 h2

lemma sameOn64_colWrite {s1 s2 : Buf} (h : sameOn64 s1 s2) (x yPos : Int) (font : List Nat)
    (base fht8 j i : Nat) :
    sameOn64 (colWrite x yPos font base fht8 j i s1) (colWrite x yPos font base fht8 j i s2) := by
  unfold colWrite
  by_cases h1 : 0 ≤ x + (i : Int) ∧ x + (i : Int) < 32
  · rw [if_pos h1, if_pos h1]
    by_cases h2 : 0 ≤ x + 32 * ((j : Int) + yPos) + (i : Int) ∧
        x + 32 * ((j : Int) + yPos) + (i : Int) < 64
    · rw [if_pos h2, if_pos h2]
      exact sameOn64_bufSet h _ _
    · rw [if_neg h2, if_neg h2]
      exact h
  · rw [if_neg h1, if_neg h1]
    exact h

lemma sameOn64_termWrite {s1 s2 : Buf} (h : sameOn64 s1 s2) (x yPos : Int) (j w : Nat) :
    sameOn64 (termWrite x yPos j w s1) (termWrite x yPos j w s2) := by
  unfold termWrite
  by_cases h1 : 0 ≤ x + (w : Int) ∧ x + (w : Int) < 32
  · rw [if_pos h1, if_pos h1]
    by_cases h2 : 0 ≤ x + 32 * ((j : Int) + yPos) + (w : Int) ∧
        x + 32 * ((j : Int) + yPos) + (w : Int) < 64
    · rw [if_pos h2, if_pos h2]
      exact sameOn64_bufSet h _ _
    · rw [if_neg h2, if_neg h2]
      exact h
  · rw [if_neg h1, if_neg h1]
    exact h

lemma sameOn64_drawCols (x yPos : Int) (font : List Nat) (base fht8 j : Nat) :
    ∀ (cnt i : Nat) {s1 s2 : Buf}, sameOn64 s1 s2 →
      sameOn64 (drawCols x yPos font base fht8 j i cnt s1)
        (drawCols x yPos font base fht8 j i cnt s2) := by
  intro cnt
  induction cnt with
  | zero => intro i s1 s2 h; exact h
  | succ n ih =>
    intro i s1 s2 h
    simp only [drawCols]
    exact ih (i + 1) (sameOn64_colWrite h x yPos font base fht8 j i)

lemma sameOn64_drawRows (x yPos : Int) (font : List Nat) (base fht8 w : Nat) :
    ∀ (cnt j : Nat) {s1 s2 : Buf}, sameOn64 s1 s2 →
      sameOn64 (drawRows x yPos font base fht8 w j cnt s1)
        (drawRows x yPos font base fht8 w j cnt s2) := by
  intro cnt
  induction cnt with
  | zero => intro j s1 s2 h; exact h
  | succ n ih =>
    intro j s1 s2 h
    simp only [drawRows]
    apply ih (j + 1)
    unfold drawRowJ
    exact sameOn64_termWrite (sameOn64_drawCols x yPos font base fht8 j w 0 h) x yPos j w

lemma sameOn64_drawCharWithY (x yPos : Int) (c : Nat) (font : List Nat) {s1 s2 : Buf}
    (h : sameOn64 s1 s2) :
    sameOn64 (drawCharWithY x yPos c font s1).1 (drawCharWithY x yPos c font s2).1 := by
  by_cases hr : c < fontByte font 2 ∨ fontByte font 3 < c
  · rw [drawCharWithY_out_of_range x yPos c font s1 hr,
      drawCharWithY_out_of_range x yPos c font s2 hr]
    exact h
  · rw [drawCharWithY_in_range x yPos c font s1 hr, drawCharWithY_in_range x yPos c font s2 hr]
    exact sameOn64_drawRows x yPos font _ _ _ _ 0 h

lemma segStep_same (fid : Nat) (font : List Nat) (yPos : Int) (c : Nat) (g : Int → Int)
    {a b : SegSt} (h : segSame a b) :
    segSame
      { buf := (drawCharWithY a.x yPos c font a.buf).1,
        x := g (a.x + ((drawCharWithY a.x yPos c font a.buf).2 : Int)),
        tr := a.tr ++ [⟨a.x, yPos, c, fid⟩] }
      { buf := (drawCharWithY b.x yPos c font b.buf).1,
        x := g (b.x + ((drawCharWithY b.x yPos c font b.buf).2 : Int)),
        tr := b.tr ++ [⟨b.x, yPos, c, fid⟩] } := by
  obtain ⟨hb, hx, ht⟩ := h
  refine ⟨?_, ?_, ?_⟩
  · show sameOn64 (drawCharWithY a.x yPos c font a.buf).1 (drawCharWithY b.x yPos c font b.buf).1
    rw [← hx]
    exact sameOn64_drawCharWithY a.x yPos c font hb
  · show g (a.x + ((drawCharWithY a.x yPos c font a.buf).2 : Int)) =
      g (b.x + ((drawCharWithY b.x yPos c font b.buf).2 : Int))
    rw [drawCharWithY_snd, drawCharWithY_snd, hx]
  · show a.tr ++ [⟨a.x, yPos, c, fid⟩] = b.tr ++ [⟨b.x, yPos, c, fid⟩]
    rw [hx, ht]

lemma segPlain_same (fid : Nat) (font : List Nat) (yPos : Int) :
    ∀ (cs : List Nat) {a b : SegSt}, segSame a b →
      segSame (segPlain fid font yPos cs a) (segPlain fid font yPos cs b) := by
  intro cs
  induction cs with
  | nil => intro a b h; exact h
  | cons c rest ih =>
    intro a b h
    cases rest with
    | nil =>
      simp only [segPlain]
      exact segStep_same fid font yPos c (fun v => v) h
    | cons c2 rest2 =>
      simp only [segPlain]
      exact ih (segStep_same fid font yPos c (fun v => v + 1) h)

lemma segGuard29_same (fid : Nat) (font : List Nat) (yPos : Int) :
    ∀ (cs : List Nat) {a b : SegSt}, segSame a b →
      segSame (segGuard29 fid font yPos cs a) (segGuard29 fid font yPos cs b) := by
  intro cs
  induction cs with
  | nil => intro a b h; exact h
  | cons c rest ih =>
    intro a b h
    have hx := h.2.1
    simp only [segGuard29]
    by_cases hg : a.x < 29
    · rw [if_pos hg, if_pos (show b.x < 29 by rw [← hx]; exact hg)]
      exact ih (segStep_same fid font yPos c
        (fun v => if rest ≠ [] ∧ v < 32 then v + 1 else v) h)
    · rw [if_neg hg, if_neg (show ¬(b.x < 29) by rw [← hx]; exact hg)]
      exact ih h

lemma segGuard29b_same (fid : Nat) (font : List Nat) (yPos : Int) :
    ∀ (cs : List Nat) {a b : SegSt}, segSame a b →
      segSame (segGuard29b fid font yPos cs a) (segGuard29b fid font yPos cs b) := by
  intro cs
  induction cs with
  | nil => intro a b h; exact h
  | cons c rest ih =>
    intro a b h
    have hx := h.2.1
    simp only [segGuard29b]
    by_cases hg : a.x < 29
    · rw [if_pos hg, if_pos (show b.x < 29 by rw [← hx]; exact hg)]
      exact ih (segStep_same fid font yPos c
        (fun v => if rest ≠ [] ∧ v < 29 then v + 1 else v) h)
    · rw [if_neg hg, if_neg (show ¬(b.x < 29) by rw [← hx]; exact hg)]
      exact ih h

lemma segDate_same (fid : Nat) (font : List Nat) (yPos : Int) :
    ∀ (cs : List Nat) {a b : SegSt}, segSame a b →
      segSame (segDate fid font yPos cs a) (segDate fid font yPos cs b) := by
  intro cs
  induction cs with
  | nil => intro a b h; exact h
  | cons c rest ih =>
    intro a b h
    simp only [segDate]
    exact ih (segStep_same fid font yPos c (fun v => v + 1) h)

lemma colonStep_same (fid : Nat) (font : List Nat) (extra hidden : Int) (showDots : Prop)
    [Decidable showDots] {a b : SegSt} (h : segSame a b) :
    segSame (colonStep fid font extra hidden showDots a)
      (colonStep fid font extra hidden showDots b) := by
  obtain ⟨hb, hx, ht⟩ := h
  unfold colonStep
  by_cases hd : showDots
  · rw [if_pos hd, if_pos hd]
    exact segStep_same fid font 0 58 (fun v => v + extra) ⟨hb, hx, ht⟩
  · rw [if_neg hd, if_neg hd]
    refine ⟨hb, ?_, ht⟩
    show a.x + hidden = b.x + hidden
    rw [hx]

lemma ttSecondsBlock_same (F : Fonts) (st : ClockState) {a b : SegSt} (h : segSame a b) :
    segSame (ttSecondsBlock F st a) (ttSecondsBlock F st b) := by
  obtain ⟨hb, hx, ht⟩ := h
  unfold ttSecondsBlock
  by_cases hc : canShowSeconds st = true
  · rw [if_pos hc, if_pos hc]
    have hstep : segSame { a with x := a.x + 1 } { b with x := b.x + 1 } := by
      refine ⟨hb, ?_, ht⟩
      show a.x + 1 = b.x + 1
      rw [hx]
    by_cases hfit : a.x + 1 + 7 ≤ 32
    · rw [if_pos (show SegSt.x { a with x := a.x + 1 } + 7 ≤ 32 from hfit),
        if_pos (show SegSt.x { b with x := b.x + 1 } + 7 ≤ 32 by rw [← hx]; exact hfit)]
      exact segGuard29_same 1 F.digits3x5 0 (fmt02 st.seconds) hstep
    · rw [if_neg (show ¬(SegSt.x { a with x := a.x + 1 } + 7 ≤ 32) from hfit),
        if_neg (show ¬(SegSt.x { b with x := b.x + 1 } + 7 ≤ 32) by rw [← hx]; exact hfit)]
      exact hstep
  · rw [if_neg hc, if_neg hc]
    exact ⟨hb, hx, ht⟩

lemma clearScreen_same (s1 s2 : Buf) : sameOn64 (clearScreen s1) (clearScreen s2) := by
  intro k h1 h2
  unfold clearScreen
  rw [if_pos ⟨h1, h2⟩, if_pos ⟨h1, h2⟩]

lemma ttRow0_same (F : Fonts) (st : ClockState) {b1 b2 : Buf} (h : sameOn64 b1 b2) :
    segSame (ttRow0 F st b1) (ttRow0 F st b2) := by
  unfold ttRow0
  exact ttSecondsBlock_same F st (segPlain_same 0 F.digits5x8rn 0 (fmt02 st.minutes)
    (colonStep_same 0 F.digits5x8rn 1 2 (st.seconds % 2 = 0)
      (segPlain_same 0 F.digits5x8rn 0 (fmtDec (displayHoursOf st)) ⟨h, rfl, rfl⟩)))

lemma ttRow1_same (F : Fonts) (st : ClockState) {b1 b2 : Buf} (h : sameOn64 b1 b2) :
    segSame (ttRow1 F st b1) (ttRow1 F st b2) := by
  unfold ttRow1
  exact segGuard29_same 2 F.font3x7 1 (ttRow1Text st) ⟨h, rfl, rfl⟩

lemma tlRow_same (F : Fonts) (st : ClockState) {b1 b2 : Buf} (h : sameOn64 b1 b2) :
    segSame (tlRow F st b1) (tlRow F st b2) := by
  unfold tlRow
  have h3 := segPlain_same 3 F.digits5x16rn 0 (fmt02 st.minutes)
    (colonStep_same 3 F.digits5x16rn 0 1 (st.seconds % 2 = 0)
      (@segPlain_same 3 F.digits5x16rn 0 (fmtDec (displayHoursOf st))
        ⟨b1, if 9 < displayHoursOf st then 0 else 3, []⟩
        ⟨b2, if 9 < displayHoursOf st then 0 else 3, []⟩ ⟨h, rfl, rfl⟩))
  exact segGuard29b_same 2 F.font3x7 0 (fmt02 st.seconds)
    ⟨h3.1, congrArg (fun v => v + 1) h3.2.1, h3.2.2⟩

lemma tdRow0_same (F : Fonts) (st : ClockState) {b1 b2 : Buf} (h : sameOn64 b1 b2) :
    segSame (tdRow0 F st b1) (tdRow0 F st b2) := by
  unfold tdRow0
  have h3 := segPlain_same 0 F.digits5x8rn 0 (fmt02 st.minutes)
    (colonStep_same 0 F.digits5x8rn 1 2 (st.seconds % 2 = 0)
      (@segPlain_same 0 F.digits5x8rn 0 (fmtDec (displayHoursOf st))
        ⟨b1, 0, []⟩ ⟨b2, 0, []⟩ ⟨h, rfl, rfl⟩))
  exact segGuard29b_same 1 F.digits3x5 0 (fmt02 st.seconds)
    ⟨h3.1, congrArg (fun v => v + 1) h3.2.1, h3.2.2⟩

lemma tdRow1_same (F : Fonts) (st : ClockState) {b1 b2 : Buf} (h : sameOn64 b1 b2) :
    segSame (tdRow1 F st b1) (tdRow1 F st b2) := by
  unfold tdRow1
  exact segDate_same 2 F.font3x7 1 _ ⟨h, rfl, rfl⟩

lemma sameOn64_bufBytes {s1 s2 : Buf} (h : sameOn64 s1 s2) : bufBytes s1 = bufBytes s2 := by
  unfold bufBytes
  have hmap : ∀ l : List Nat, (∀ i ∈ l, i < 64) →
      l.map (fun i => s1 (i : Int)) = l.map (fun i => s2 (i : Int)) := by
    intro l
    induction l with
    | nil => intro _; rfl
    | cons a t ih =>
      intro hb
      have h1 : s1 (a : Int) = s2 (a : Int) :=
        h (a : Int) (by omega) (by have := hb a (List.mem_cons_self a t); omega)
      have h2 := ih (fun i hi => hb i (List.mem_cons_of_mem a hi))
      show s1 (a : Int) :: t.map (fun i => s1 (i : Int)) =
        s2 (a : Int) :: t.map (fun i => s2 (i : Int))
      rw [h1, h2]
  exact hmap (List.range 64) (fun i hi => List.mem_range.mp hi)

lemma displayTimeAndTemp_scr_same (F : Fonts) (st : ClockState) (b : Buf) :
    sameOn64 (displayTimeAndTemp F { st with scr := b }).1.scr
      (displayTimeAndTemp F st).1.scr := by
  have h1 := ttRow0_same F st (clearScreen_same b st.scr)
  have h2 := ttRow1_same F st h1.1
  exact h2.1

lemma displayTimeLarge_scr_same (F : Fonts) (st : ClockState) (b : Buf) :
    sameOn64 (displayTimeLarge F { st with scr := b }).1.scr
      (displayTimeLarge F st).1.scr := by
  have h1 := tlRow_same F st (clearScreen_same b st.scr)
  exact h1.1

lemma displayTimeAndDate_scr_same (F : Fonts) (st : ClockState) (b : Buf) :
    sameOn64 (displayTimeAndDate F { st with scr := b }).1.scr
      (displayTimeAndDate F st).1.scr := by
  have h1 := tdRow0_same F st (clearScreen_same b st.scr)
  have h2 := tdRow1_same F st h1.1
  exact h2.1

/-- C7: each layout routine is idempotent: a second invocation with the
same wall-clock and display state leaves the 64 framebuffer bytes exactly
as after the first invocation (proved for every font environment). -/
theorem claim_C7 (F : Fonts) (st : ClockState) :
    bufBytes (displayTimeAndTemp F (displayTimeAndTemp F st).1).1.scr =
      bufBytes (displayTimeAndTemp F st).1.scr ∧
    bufBytes (displayTimeLarge F (displayTimeLarge F st).1).1.scr =
      bufBytes (displayTimeLarge F st).1.scr ∧
    bufBytes (displayTimeAndDate F (displayTimeAndDate F st).1).1.scr =
      bufBytes (displayTimeAndDate F st).1.scr := by
  refine ⟨?_, ?_, ?_⟩
  · exact sameOn64_bufBytes (displayTimeAndTemp_scr_same F st (displayTimeAndTemp F st).1.scr)
  · exact sameOn64_bufBytes (displayTimeLarge_scr_same F st (displayTimeLarge F st).1.scr)
  · exact sameOn64_bufBytes (displayTimeAndDate_scr_same F st (displayTimeAndDate F st).1.scr)

lemma fmtDecAux_small (fuel n : Nat) (h : n < 10) (hf : 1 ≤ fuel) :
    fmtDecAux fuel n = [48 + n] := by
  cases fuel with
  | zero => omega
  | succ m =>
    simp only [fmtDecAux]
    rw [if_pos h]

lemma fmtDec_small (n : Nat) (h : n < 10) : fmtDec n = [48 + n] := by
  unfold fmtDec
  exact fmtDecAux_small (n + 1) n h (by omega)

lemma fmtDec_two (n : Nat) (h1 : 10 ≤ n) (h2 : n < 100) :
    fmtDec n = [48 + n / 10, 48 + n % 10] := by
  unfold fmtDec
  cases n with
  | zero => omega
  | succ m =>
    simp only [fmtDecAux]
    rw [if_neg (by omega), if_pos (by omega : (m + 1) / 10 < 10)]
    rfl

lemma fmtDecAux_digits : ∀ (fuel n : Nat), ∀ c ∈ fmtDecAux fuel n, 48 ≤ c ∧ c ≤ 57 := by
  intro fuel
  induction fuel with
  | zero => intro n c hc; exact absurd hc (List.not_mem_nil c)
  | succ m ih =>
    intro n c hc
    simp only [fmtDecAux] at hc
    by_cases h : n < 10
    · rw [if_pos h] at hc
      have : c = 48 + n := List.mem_singleton.mp hc
      omega
    · rw [if_neg h] at hc
      rcases List.mem_append.mp hc with h2 | h2
      · exact ih (n / 10) c h2
      · have : c = 48 + n % 10 := List.mem_singleton.mp h2
        omega

lemma fmtDec_digits (n : Nat) : ∀ c ∈ fmtDec n, 48 ≤ c ∧ c ≤ 57 :=
  fmtDecAux_digits (n + 1) n

lemma fmt02_digits (n : Nat) : ∀ c ∈ fmt02 n, 48 ≤ c ∧ c ≤ 57 := by
  intro c hc
  unfold fmt02 at hc
  by_cases h : n < 10
  · rw [if_pos h] at hc
    rcases List.mem_cons.mp hc with h2 | h2
    · omega
    · have : c = 48 + n := List.mem_singleton.mp h2
      omega
  · rw [if_neg h] at hc
    exact fmtDec_digits n c hc

lemma fmt02_cases (s : Nat) (h : s < 100) :
    ∃ d1 d2, fmt02 s = [d1, d2] ∧ 48 ≤ d1 ∧ d1 ≤ 57 ∧ 48 ≤ d2 ∧ d2 ≤ 57 := by
  by_cases h1 : s < 10
  · exact ⟨48, 48 + s, by rw [fmt02, if_pos h1], by omega, by omega, by omega, by omega⟩
  · refine ⟨48 + s / 10, 48 + s % 10, ?_, by omega, by omega, by omega, by omega⟩
    rw [fmt02, if_neg h1, fmtDec_two s (by omega) h]

lemma dw_d58_digit (c : Nat) (h1 : 48 ≤ c) (h2 : c ≤ 57) : drawCharW c digits5x8rnSpec = 5 := by
  interval_cases c <;> decide

lemma dw_d58_colon : drawCharW 58 digits5x8rnSpec = 1 := by decide

lemma dw_d516_digit (c : Nat) (h1 : 48 ≤ c) (h2 : c ≤ 57) :
    drawCharW c digits5x16rnSpec = 5 := by
  interval_cases c <;> decide

lemma dw_d516_colon : drawCharW 58 digits5x16rnSpec = 1 := by decide

lemma dw_d3x5_digit (c : Nat) (h1 : 48 ≤ c) (h2 : c ≤ 57) : drawCharW c digits3x5Spec = 3 := by
  interval_cases c <;> decide

lemma dw_f37_digit (c : Nat) (h1 : 48 ≤ c) (h2 : c ≤ 57) : drawCharW c font3x7Spec = 3 := by
  interval_cases c <;> decide

/-- Position projection of a draw call: everything except the codepoint. -/
def posOf (d : DrawCall) : Int × Int × Nat := (d.x, d.yPos, d.fid)

/-- Colon test on a recorded draw call. -/
def isColon (d : DrawCall) : Bool := d.c == 58

lemma segPlain_shape (fid : Nat) (font : List Nat) (yPos : Int) :
    ∀ (cs : List Nat) (a b : SegSt), a.x = b.x →
      (segPlain fid font yPos cs a).x = (segPlain fid font yPos cs b).x ∧
      ∃ d : List DrawCall,
        (segPlain fid font yPos cs a).tr = a.tr ++ d ∧
        (segPlain fid font yPos cs b).tr = b.tr ++ d ∧
        (∀ e ∈ d, e.c ∈ cs ∧ e.fid = fid) := by
  intro cs
  induction cs with
  | nil =>
    intro a b hx
    exact ⟨hx, [], by simp [segPlain], by simp [segPlain], by simp⟩
  | cons c rest ih =>
    intro a b hx
    cases rest with
    | nil =>
      simp only [segPlain, drawCharWithY_snd]
      refine ⟨by rw [hx], [⟨a.x, yPos, c, fid⟩], rfl, by rw [hx], ?_⟩
      intro e he
      have : e = ⟨a.x, yPos, c, fid⟩ := List.mem_singleton.mp he
      subst this
      exact ⟨List.mem_singleton.mpr rfl, rfl⟩
    | cons c2 rest2 =>
      simp only [segPlain, drawCharWithY_snd]
      obtain ⟨hx2, d, ha, hb, hmem⟩ := ih
        ⟨(drawCharWithY a.x yPos c font a.buf).1, a.x + (drawCharW c font : Int) + 1,
          a.tr ++ [⟨a.x, yPos, c, fid⟩]⟩
        ⟨(drawCharWithY b.x yPos c font b.buf).1, b.x + (drawCharW c font : Int) + 1,
          b.tr ++ [⟨b.x, yPos, c, fid⟩]⟩
        (by show a.x + _ + 1 = b.x + _ + 1; rw [hx])
      refine ⟨hx2, ⟨a.x, yPos, c, fid⟩ :: d, ?_, ?_, ?_⟩
      · rw [ha]
        simp
      · rw [hb, hx]
        simp
      · intro e he
        rcases List.mem_cons.mp he with h2 | h2
        · subst h2
          exact ⟨List.mem_cons_self c (c2 :: rest2), rfl⟩
        · obtain ⟨hc, hf⟩ := hmem e h2
          exact ⟨List.mem_cons_of_mem c hc, hf⟩

lemma segGuard29_shape2 (fid : Nat) (font : List Nat) (yPos : Int) :
    ∀ (cs1 cs2 : List Nat) (a b : SegSt), a.x = b.x →
      cs1.map (fun c => drawCharW c font) = cs2.map (fun c => drawCharW c font) →
      (segGuard29 fid font yPos cs1 a).x = (segGuard29 fid font yPos cs2 b).x ∧
      ∃ d1 d2 : List DrawCall,
        (segGuard29 fid font yPos cs1 a).tr = a.tr ++ d1 ∧
        (segGuard29 fid font yPos cs2 b).tr = b.tr ++ d2 ∧
        d1.map posOf = d2.map posOf ∧
        (∀ e ∈ d1, e.c ∈ cs1 ∧ e.fid = fid) ∧
        (∀ e ∈ d2, e.c ∈ cs2 ∧ e.fid = fid) := by
  intro cs1
  induction cs1 with
  | nil =>
    intro cs2 a b hx hw
    have hn : cs2 = [] := by
      cases cs2 with
      | nil => rfl
      | cons c t => simp at hw
    subst hn
    exact ⟨hx, [], [], by simp [segGuard29], by simp [segGuard29], rfl, by simp, by simp⟩
  | cons c1 rest1 ih =>
    intro cs2 a b hx hw
    cases cs2 with
    | nil => simp at hw
    | cons c2 rest2 =>
      simp only [List.map_cons, List.cons.injEq] at hw
      obtain ⟨hwh, hwt⟩ := hw
      have hlen : rest1.length = rest2.length := by
        have := congrArg List.length hwt
        simpa using this
      have hne : (rest1 ≠ []) ↔ (rest2 ≠ []) := by
        rw [ne_eq, ne_eq, ← List.length_eq_zero, ← List.length_eq_zero, hlen]
      simp only [segGuard29, drawCharWithY_snd]
      by_cases hg : a.x < 29
      · rw [if_pos hg, if_pos (show b.x < 29 by rw [← hx]; exact hg)]
        have hxstep :
            (if rest1 ≠ [] ∧ a.x + (drawCharW c1 font : Int) < 32 then
              a.x + (drawCharW c1 font : Int) + 1 else a.x + (drawCharW c1 font : Int)) =
            (if rest2 ≠ [] ∧ b.x + (drawCharW c2 font : Int) < 32 then
              b.x + (drawCharW c2 font : Int) + 1 else b.x + (drawCharW c2 font : Int)) := by
          rw [hx, hwh]
          exact if_congr (and_congr_left (fun _ => hne)) rfl rfl
        obtain ⟨hx2, d1, d2, ha, hb, hpos, hm1, hm2⟩ := ih rest2
          ⟨(drawCharWithY a.x yPos c1 font a.buf).1,
            if rest1 ≠ [] ∧ a.x + (drawCharW c1 font : Int) < 32 then
              a.x + (drawCharW c1 font : Int) + 1 else a.x + (drawCharW c1 font : Int),
            a.tr ++ [⟨a.x, yPos, c1, fid⟩]⟩
          ⟨(drawCharWithY b.x yPos c2 font b.buf).1,
            if rest2 ≠ [] ∧ b.x + (drawCharW c2 font : Int) < 32 then
              b.x + (drawCharW c2 font : Int) + 1 else b.x + (drawCharW c2 font : Int),
            b.tr ++ [⟨b.x, yPos, c2, fid⟩]⟩
          hxstep hwt
        refine ⟨hx2, ⟨a.x, yPos, c1, fid⟩ :: d1, ⟨b.x, yPos, c2, fid⟩ :: d2, ?_, ?_, ?_, ?_, ?_⟩
        · rw [ha]
          simp
        · rw [hb]
          simp
        · simp only [List.map_cons]
          rw [hpos]
          show (a.x, yPos, fid) :: _ = (b.x, yPos, fid) :: _
          rw [hx]
        · intro e he
          rcases List.mem_cons.mp he with h2 | h2
          · subst h2
            exact ⟨List.mem_cons_self c1 rest1, rfl⟩
          · obtain ⟨hc, hf⟩ := hm1 e h2
            exact ⟨List.mem_cons_of_mem c1 hc, hf⟩
        · intro e he
          rcases List.mem_cons.mp he with h2 | h2
          · subst h2
            exact ⟨List.mem_cons_self c2 rest2, rfl⟩
          · obtain ⟨hc, hf⟩ := hm2 e h2
            exact ⟨List.mem_cons_of_mem c2 hc, hf⟩
      · rw [if_neg hg, if_neg (show ¬(b.x < 29) by rw [← hx]; exact hg)]
        obtain ⟨hx2, d1, d2, ha, hb, hpos, hm1, hm2⟩ := ih rest2 a b hx hwt
        refine ⟨hx2, d1, d2, ha, hb, hpos, ?_, ?_⟩
        · intro e he
          obtain ⟨hc, hf⟩ := hm1 e he
          exact ⟨List.mem_cons_of_mem c1 hc, hf⟩
        · intro e he
          obtain ⟨hc, hf⟩ := hm2 e he
          exact ⟨List.mem_cons_of_mem c2 hc, hf⟩

lemma segGuard29b_shape2 (fid : Nat) (font : List Nat) (yPos : Int) :
    ∀ (cs1 cs2 : List Nat) (a b : SegSt), a.x = b.x →
      cs1.map (fun c => drawCharW c font) = cs2.map (fun c => drawCharW c font) →
      (segGuard29b fid font yPos cs1 a).x = (segGuard29b fid font yPos cs2 b).x ∧
      ∃ d1 d2 : List DrawCall,
        (segGuard29b fid font yPos cs1 a).tr = a.tr ++ d1 ∧
        (segGuard29b fid font yPos cs2 b).tr = b.tr ++ d2 ∧
        d1.map posOf = d2.map posOf ∧
        (∀ e ∈ d1, e.c ∈ cs1 ∧ e.fid = fid) ∧
        (∀ e ∈ d2, e.c ∈ cs2 ∧ e.fid = fid) := by
  intro cs1
  induction cs1 with
  | nil =>
    intro cs2 a b hx hw
    have hn : cs2 = [] := by
      cases cs2 with
      | nil => rfl
      | cons c t => simp at hw
    subst hn
    exact ⟨hx, [], [], by simp [segGuard29b], by simp [segGuard29b], rfl, by simp, by simp⟩
  | cons c1 rest1 ih =>
    intro cs2 a b hx hw
    cases cs2 with
    | nil => simp at hw
    | cons c2 rest2 =>
      simp only [List.map_cons, List.cons.injEq] at hw
      obtain ⟨hwh, hwt⟩ := hw
      have hlen : rest1.length = rest2.length := by
        have := congrArg List.length hwt
        simpa using this
      have hne : (rest1 ≠ []) ↔ (rest2 ≠ []) := by
        rw [ne_eq, ne_eq, ← List.length_eq_zero, ← List.length_eq_zero, hlen]
      simp only [segGuard29b, drawCharWithY_snd]
      by_cases hg : a.x < 29
      · rw [if_pos hg, if_pos (show b.x < 29 by rw [← hx]; exact hg)]
        have hxstep :
            (if rest1 ≠ [] ∧ a.x + (drawCharW c1 font : Int) < 29 then
              a.x + (drawCharW c1 font : Int) + 1 else a.x + (drawCharW c1 font : Int)) =
            (if rest2 ≠ [] ∧ b.x + (drawCharW c2 font : Int) < 29 then
              b.x + (drawCharW c2 font : Int) + 1 else b.x + (drawCharW c2 font : Int)) := by
          rw [hx, hwh]
          exact if_congr (and_congr_left (fun _ => hne)) rfl rfl
        obtain ⟨hx2, d1, d2, ha, hb, hpos, hm1, hm2⟩ := ih rest2
          ⟨(drawCharWithY a.x yPos c1 font a.buf).1,
            if rest1 ≠ [] ∧ a.x + (drawCharW c1 font : Int) < 29 then
              a.x + (drawCharW c1 font : Int) + 1 else a.x + (drawCharW c1 font : Int),
            a.tr ++ [⟨a.x, yPos, c1, fid⟩]⟩
          ⟨(drawCharWithY b.x yPos c2 font b.buf).1,
            if rest2 ≠ [] ∧ b.x + (drawCharW c2 font : Int) < 29 then
              b.x + (drawCharW c2 font : Int) + 1 else b.x + (drawCharW c2 font : Int),
            b.tr ++ [⟨b.x, yPos, c2, fid⟩]⟩
          hxstep hwt
        refine ⟨hx2, ⟨a.x, yPos, c1, fid⟩ :: d1, ⟨b.x, yPos, c2, fid⟩ :: d2, ?_, ?_, ?_, ?_, ?_⟩
        · rw [ha]
          simp
        · rw [hb]
          simp
        · simp only [List.map_cons]
          rw [hpos]
          show (a.x, yPos, fid) :: _ = (b.x, yPos, fid) :: _
          rw [hx]
        · intro e he
          rcases List.mem_cons.mp he with h2 | h2
          · subst h2
            exact ⟨List.mem_cons_self c1 rest1, rfl⟩
          · obtain ⟨hc, hf⟩ := hm1 e h2
            exact ⟨List.mem_cons_of_mem c1 hc, hf⟩
        · intro e he
          rcases List.mem_cons.mp he with h2 | h2
          · subst h2
            exact ⟨List.mem_cons_self c2 rest2, rfl⟩
          · obtain ⟨hc, hf⟩ := hm2 e h2
            exact ⟨List.mem_cons_of_mem c2 hc, hf⟩
      · rw [if_neg hg, if_neg (show ¬(b.x < 29) by rw [← hx]; exact hg)]
        obtain ⟨hx2, d1, d2, ha, hb, hpos, hm1, hm2⟩ := ih rest2 a b hx hwt
        refine ⟨hx2, d1, d2, ha, hb, hpos, ?_, ?_⟩
        · intro e he
          obtain ⟨hc, hf⟩ := hm1 e he
          exact ⟨List.mem_cons_of_mem c1 hc, hf⟩
        · intro e he
          obtain ⟨hc, hf⟩ := hm2 e he
          exact ⟨List.mem_cons_of_mem c2 hc, hf⟩

lemma colonStep_shown (fid : Nat) (font : List Nat) (extra hidden : Int) (sd : Prop)
    [Decidable sd] (hsd : sd) (a : SegSt) :
    colonStep fid font extra hidden sd a =
      { buf := (drawCharWithY a.x 0 58 font a.buf).1,
        x := a.x + (drawCharW 58 font : Int) + extra,
        tr := a.tr ++ [⟨a.x, 0, 58, fid⟩] } := by
  unfold colonStep
  rw [if_pos hsd]
  simp only [drawCharWithY_snd]

lemma colonStep_hidden (fid : Nat) (font : List Nat) (extra hidden : Int) (sd : Prop)
    [Decidable sd] (hsd : ¬sd) (a : SegSt) :
    colonStep fid font extra hidden sd a = { a with x := a.x + hidden } := by
  unfold colonStep
  rw [if_neg hsd]

lemma fmt02_w_d3x5 (s : Nat) (h : s < 100) :
    (fmt02 s).map (fun c => drawCharW c digits3x5Spec) = [3, 3] := by
  obtain ⟨d1, d2, he, h1, h2, h3, h4⟩ := fmt02_cases s h
  rw [he]
  simp only [List.map_cons, List.map_nil]
  rw [dw_d3x5_digit d1 h1 h2, dw_d3x5_digit d2 h3 h4]

lemma fmt02_w_f37 (s : Nat) (h : s < 100) :
    (fmt02 s).map (fun c => drawCharW c font3x7Spec) = [3, 3] := by
  obtain ⟨d1, d2, he, h1, h2, h3, h4⟩ := fmt02_cases s h
  rw [he]
  simp only [List.map_cons, List.map_nil]
  rw [dw_f37_digit d1 h1 h2, dw_f37_digit d2 h3 h4]

lemma nonColon_of_digit {l : List DrawCall} (h : ∀ e ∈ l, 48 ≤ e.c ∧ e.c ≤ 57) :
    l.countP isColon = 0 ∧ l.filter (fun d => !isColon d) = l := by
  constructor
  · refine List.countP_eq_zero.mpr ?_
    intro e he
    have hb := h e he
    simp only [isColon, beq_iff_eq]
    omega
  · refine List.filter_eq_self.mpr ?_
    intro e he
    have hb := h e he
    simp only [isColon, Bool.not_eq_true', beq_eq_false_iff_ne, ne_eq]
    omega

lemma ttSecondsBlock_parity (stA stB : ClockState)
    (hu : stA.use24HourFormat = stB.use24HourFormat) (hh24 : stA.hours24 = stB.hours24)
    (hsA60 : stA.seconds < 60) (hsB60 : stB.seconds < 60)
    (a b : SegSt) (hx : a.x = b.x) :
    (ttSecondsBlock specFonts stA a).x = (ttSecondsBlock specFonts stB b).x ∧
    ∃ d1 d2 : List DrawCall,
      (ttSecondsBlock specFonts stA a).tr = a.tr ++ d1 ∧
      (ttSecondsBlock specFonts stB b).tr = b.tr ++ d2 ∧
      d1.map posOf = d2.map posOf ∧
      (∀ e ∈ d1, 48 ≤ e.c ∧ e.c ≤ 57) ∧ (∀ e ∈ d2, 48 ≤ e.c ∧ e.c ≤ 57) := by
  have hcs : canShowSeconds stA = canShowSeconds stB := by
    unfold canShowSeconds
    rw [hu, hh24]
  unfold ttSecondsBlock
  rw [hcs]
  by_cases hc : canShowSeconds stB = true
  · rw [if_pos hc, if_pos hc]
    by_cases hfit : a.x + 1 + 7 ≤ 32
    · rw [if_pos (show SegSt.x { a with x := a.x + 1 } + 7 ≤ 32 from hfit),
        if_pos (show SegSt.x { b with x := b.x + 1 } + 7 ≤ 32 by
          show b.x + 1 + 7 ≤ 32
          rw [← hx]
          exact hfit)]
      have hwmap : (fmt02 stA.seconds).map (fun c => drawCharW c specFonts.digits3x5) =
          (fmt02 stB.seconds).map (fun c => drawCharW c specFonts.digits3x5) :=
        (fmt02_w_d3x5 stA.seconds (by omega)).trans (fmt02_w_d3x5 stB.seconds (by omega)).symm
      obtain ⟨hx2, d1, d2, ha, hb, hpos, hm1, hm2⟩ :=
        segGuard29_shape2 1 specFonts.digits3x5 0 (fmt02 stA.seconds) (fmt02 stB.seconds)
          { a with x := a.x + 1 } { b with x := b.x + 1 }
          (show a.x + 1 = b.x + 1 by rw [hx]) hwmap
      refine ⟨hx2, d1, d2, ha, hb, hpos, ?_, ?_⟩
      · intro e he
        obtain ⟨hcm, _⟩ := hm1 e he
        exact fmt02_digits stA.seconds e.c hcm
      · intro e he
        obtain ⟨hcm, _⟩ := hm2 e he
        exact fmt02_digits stB.seconds e.c hcm
    · rw [if_neg (show ¬(SegSt.x { a with x := a.x + 1 } + 7 ≤ 32) from hfit),
        if_neg (show ¬(SegSt.x { b with x := b.x + 1 } + 7 ≤ 32) by
          show ¬(b.x + 1 + 7 ≤ 32)
          rw [← hx]
          exact hfit)]
      exact ⟨by show a.x + 1 = b.x + 1; rw [hx], [], [], by simp, by simp, rfl, by simp, by simp⟩
  · rw [if_neg hc, if_neg hc]
    exact ⟨hx, [], [], by simp, by simp, rfl, by simp, by simp⟩

lemma ttRow0_parity (stA stB : ClockState) (b : Buf)
    (hu : stA.use24HourFormat = stB.use24HourFormat)
    (hh : stA.hours = stB.hours) (hh24 : stA.hours24 = stB.hours24)
    (hm : stA.minutes = stB.minutes)
    (hsA : stA.seconds % 2 = 0) (hsB : stB.seconds % 2 = 1)
    (hsA60 : stA.seconds < 60) (hsB60 : stB.seconds < 60) :
    (ttRow0 specFonts stA b).x = (ttRow0 specFonts stB b).x ∧
    (ttRow0 specFonts stA b).tr.countP isColon = 1 ∧
    (ttRow0 specFonts stB b).tr.countP isColon = 0 ∧
    ((ttRow0 specFonts stA b).tr.filter (fun d => !isColon d)).map posOf =
      ((ttRow0 specFonts stB b).tr.filter (fun d => !isColon d)).map posOf := by
  have hdh : displayHoursOf stA = displayHoursOf stB := by
    unfold displayHoursOf
    rw [hu, hh, hh24]
  unfold ttRow0
  rw [hdh, hm]
  set H := segPlain 0 specFonts.digits5x8rn 0 (fmtDec (displayHoursOf stB))
    { buf := b, x := 0, tr := [] } with hHdef
  obtain ⟨_, dH, hHtr, _, hHmem⟩ := segPlain_shape 0 specFonts.digits5x8rn 0
    (fmtDec (displayHoursOf stB)) { buf := b, x := 0, tr := [] } { buf := b, x := 0, tr := [] } rfl
  rw [← hHdef] at hHtr
  simp only [List.nil_append] at hHtr
  have hCA := colonStep_shown 0 specFonts.digits5x8rn 1 2 (stA.seconds % 2 = 0) hsA H
  have hCB := colonStep_hidden 0 specFonts.digits5x8rn 1 2 (stB.seconds % 2 = 0) (by omega) H
  rw [hCA, hCB]
  have hw58 : drawCharW 58 specFonts.digits5x8rn = 1 := by decide
  set CA : SegSt := { buf := (drawCharWithY H.x 0 58 specFonts.digits5x8rn H.buf).1,
                      x := H.x + (drawCharW 58 specFonts.digits5x8rn : Int) + 1,
                      tr := H.tr ++ [⟨H.x, 0, 58, 0⟩] } with hCAdef
  set CB : SegSt := { H with x := H.x + 2 } with hCBdef
  have hxC : CA.x = CB.x := by
    rw [hCAdef, hCBdef]
    show H.x + (drawCharW 58 specFonts.digits5x8rn : Int) + 1 = H.x + 2
    rw [hw58]
    omega
  obtain ⟨hxM, dM, hMa, hMb, hMmem⟩ := segPlain_shape 0 specFonts.digits5x8rn 0
    (fmt02 stB.minutes) CA CB hxC
  obtain ⟨hxS, dS1, dS2, hSa, hSb, hSpos, hSm1, hSm2⟩ :=
    ttSecondsBlock_parity stA stB hu hh24 hsA60 hsB60
      (segPlain 0 specFonts.digits5x8rn 0 (fmt02 stB.minutes) CA)
      (segPlain 0 specFonts.digits5x8rn 0 (fmt02 stB.minutes) CB) hxM
  have hCAtr : CA.tr = H.tr ++ [⟨H.x, 0, 58, 0⟩] := rfl
  have hCBtr : CB.tr = H.tr := rfl
  have hdHdig : ∀ e ∈ dH, 48 ≤ e.c ∧ e.c ≤ 57 := by
    intro e he
    exact fmtDec_digits (displayHoursOf stB) e.c (hHmem e he).1
  have hdMdig : ∀ e ∈ dM, 48 ≤ e.c ∧ e.c ≤ 57 := by
    intro e he
    exact fmt02_digits stB.minutes e.c (hMmem e he).1
  have hAtr : (ttSecondsBlock specFonts stA
      (segPlain 0 specFonts.digits5x8rn 0 (fmt02 stB.minutes) CA)).tr =
      ((dH ++ [⟨H.x, 0, 58, 0⟩]) ++ dM) ++ dS1 := by
    rw [hSa, hMa, hCAtr, hHtr]
  have hBtr : (ttSecondsBlock specFonts stB
      (segPlain 0 specFonts.digits5x8rn 0 (fmt02 stB.minutes) CB)).tr =
      (dH ++ dM) ++ dS2 := by
    rw [hSb, hMb, hCBtr, hHtr]
  refine ⟨hxS, ?_, ?_, ?_⟩
  · rw [hAtr]
    simp only [List.countP_append]
    rw [(nonColon_of_digit hdHdig).1, (nonColon_of_digit hdMdig).1,
      (nonColon_of_digit hSm1).1]
    simp [isColon, List.countP_cons]
  · rw [hBtr]
    simp only [List.countP_append]
    rw [(nonColon_of_digit hdHdig).1, (nonColon_of_digit hdMdig).1,
      (nonColon_of_digit hSm2).1]
  · rw [hAtr, hBtr]
    simp only [List.filter_append]
    rw [(nonColon_of_digit hdHdig).2, (nonColon_of_digit hdMdig).2,
      (nonColon_of_digit hSm1).2, (nonColon_of_digit hSm2).2]
    have hcolonF : List.filter (fun d => !isColon d) [(⟨H.x, 0, 58, 0⟩ : DrawCall)] = [] := by
      simp [isColon]
    rw [hcolonF]
    simp only [List.append_nil, List.map_append]
    rw [hSpos]

lemma tlRow_parity (stA stB : ClockState) (b : Buf)
    (hu : stA.use24HourFormat = stB.use24HourFormat)
    (hh : stA.hours = stB.hours) (hh24 : stA.hours24 = stB.hours24)
    (hm : stA.minutes = stB.minutes)
    (hsA : stA.seconds % 2 = 0) (hsB : stB.seconds % 2 = 1)
    (hsA60 : stA.seconds < 60) (hsB60 : stB.seconds < 60) :
    (tlRow specFonts stA b).x = (tlRow specFonts stB b).x ∧
    (tlRow specFonts stA b).tr.countP isColon = 1 ∧
    (tlRow specFonts stB b).tr.countP isColon = 0 ∧
    ((tlRow specFonts stA b).tr.filter (fun d => !isColon d)).map posOf =
      ((tlRow specFonts stB b).tr.filter (fun d => !isColon d)).map posOf := by
  have hdh : displayHoursOf stA = displayHoursOf stB := by
    unfold displayHoursOf
    rw [hu, hh, hh24]
  unfold tlRow
  rw [hdh, hm]
  set H := segPlain 3 specFonts.digits5x16rn 0 (fmtDec (displayHoursOf stB))
    { buf := b, x := if 9 < displayHoursOf stB then 0 else 3, tr := [] } with hHdef
  obtain ⟨_, dH, hHtr, _, hHmem⟩ := segPlain_shape 3 specFonts.digits5x16rn 0
    (fmtDec (displayHoursOf stB))
    { buf := b, x := if 9 < displayHoursOf stB then 0 else 3, tr := [] }
    { buf := b, x := if 9 < displayHoursOf stB then 0 else 3, tr := [] } rfl
  rw [← hHdef] at hHtr
  simp only [List.nil_append] at hHtr
  have hCA := colonStep_shown 3 specFonts.digits5x16rn 0 1 (stA.seconds % 2 = 0) hsA H
  have hCB := colonStep_hidden 3 specFonts.digits5x16rn 0 1 (stB.seconds % 2 = 0) (by omega) H
  rw [hCA, hCB]
  have hw58 : drawCharW 58 specFonts.digits5x16rn = 1 := by decide
  set CA : SegSt := { buf := (drawCharWithY H.x 0 58 specFonts.digits5x16rn H.buf).1,
                      x := H.x + (drawCharW 58 specFonts.digits5x16rn : Int) + 0,
                      tr := H.tr ++ [⟨H.x, 0, 58, 3⟩] } with hCAdef
  set CB : SegSt := { H with x := H.x + 1 } with hCBdef
  have hxC : CA.x = CB.x := by
    rw [hCAdef, hCBdef]
    show H.x + (drawCharW 58 specFonts.digits5x16rn : Int) + 0 = H.x + 1
    rw [hw58]
    omega
  obtain ⟨hxM, dM, hMa, hMb, hMmem⟩ := segPlain_shape 3 specFonts.digits5x16rn 0
    (fmt02 stB.minutes) CA CB hxC
  have hwmap : (fmt02 stA.seconds).map (fun c => drawCharW c specFonts.font3x7) =
      (fmt02 stB.seconds).map (fun c => drawCharW c specFonts.font3x7) :=
    (fmt02_w_f37 stA.seconds (by omega)).trans (fmt02_w_f37 stB.seconds (by omega)).symm
  obtain ⟨hxS, dS1, dS2, hSa, hSb, hSpos, hSm1, hSm2⟩ :=
    segGuard29b_shape2 2 specFonts.font3x7 0 (fmt02 stA.seconds) (fmt02 stB.seconds)
      { segPlain 3 specFonts.digits5x16rn 0 (fmt02 stB.minutes) CA with
        x := (segPlain 3 specFonts.digits5x16rn 0 (fmt02 stB.minutes) CA).x + 1 }
      { segPlain 3 specFonts.digits5x16rn 0 (fmt02 stB.minutes) CB with
        x := (segPlain 3 specFonts.digits5x16rn 0 (fmt02 stB.minutes) CB).x + 1 }
      (by show _ + 1 = _ + 1; rw [hxM]) hwmap
  have hCAtr : CA.tr = H.tr ++ [⟨H.x, 0, 58, 3⟩] := rfl
  have hCBtr : CB.tr = H.tr := rfl
  have hdHdig : ∀ e ∈ dH, 48 ≤ e.c ∧ e.c ≤ 57 := by
    intro e he
    exact fmtDec_digits (displayHoursOf stB) e.c (hHmem e he).1
  have hdMdig : ∀ e ∈ dM, 48 ≤ e.c ∧ e.c ≤ 57 := by
    intro e he
    exact fmt02_digits stB.minutes e.c (hMmem e he).1
  have hdS1dig : ∀ e ∈ dS1, 48 ≤ e.c ∧ e.c ≤ 57 := by
    intro e he
    exact fmt02_digits stA.seconds e.c (hSm1 e he).1
  have hdS2dig : ∀ e ∈ dS2, 48 ≤ e.c ∧ e.c ≤ 57 := by
    intro e he
    exact fmt02_digits stB.seconds e.c (hSm2 e he).1
  have hAtr : (segGuard29b 2 specFonts.font3x7 0 (fmt02 stA.seconds)
      { segPlain 3 specFonts.digits5x16rn 0 (fmt02 stB.minutes) CA with
        x := (segPlain 3 specFonts.digits5x16rn 0 (fmt02 stB.minutes) CA).x + 1 }).tr =
      ((dH ++ [⟨H.x, 0, 58, 3⟩]) ++ dM) ++ dS1 := by
    rw [hSa]
    show (segPlain 3 specFonts.digits5x16rn 0 (fmt02 stB.minutes) CA).tr ++ dS1 = _
    rw [hMa, hCAtr, hHtr]
  have hBtr : (segGuard29b 2 specFonts.font3x7 0 (fmt02 stB.seconds)
      { segPlain 3 specFonts.digits5x16rn 0 (fmt02 stB.minutes) CB with
        x := (segPlain 3 specFonts.digits5x16rn 0 (fmt02 stB.minutes) CB).x + 1 }).tr =
      (dH ++ dM) ++ dS2 := by
    rw [hSb]
    show (segPlain 3 specFonts.digits5x16rn 0 (fmt02 stB.minutes) CB).tr ++ dS2 = _
    rw [hMb, hCBtr, hHtr]
  refine ⟨hxS, ?_, ?_, ?_⟩
  · rw [hAtr]
    simp only [List.countP_append]
    rw [(nonColon_of_digit hdHdig).1, (nonColon_of_digit hdMdig).1,
      (nonColon_of_digit hdS1dig).1]
    simp [isColon, List.countP_cons]
  · rw [hBtr]
    simp only [List.countP_append]
    rw [(nonColon_of_digit hdHdig).1, (nonColon_of_digit hdMdig).1,
      (nonColon_of_digit hdS2dig).1]
  · rw [hAtr, hBtr]
    simp only [List.filter_append]
    rw [(nonColon_of_digit hdHdig).2, (nonColon_of_digit hdMdig).2,
      (nonColon_of_digit hdS1dig).2, (nonColon_of_digit hdS2dig).2]
    have hcolonF : List.filter (fun d => !isColon d) [(⟨H.x, 0, 58, 3⟩ : DrawCall)] = [] := by
      simp [isColon]
    rw [hcolonF]
    simp only [List.append_nil, List.map_append]
    rw [hSpos]

lemma tdRow0_parity (stA stB : ClockState) (b : Buf)
    (hu : stA.use24HourFormat = stB.use24HourFormat)
    (hh : stA.hours = stB.hours) (hh24 : stA.hours24 = stB.hours24)
    (hm : stA.minutes = stB.minutes)
    (hsA : stA.seconds % 2 = 0) (hsB : stB.seconds % 2 = 1)
    (hsA60 : stA.seconds < 60) (hsB60 : stB.seconds < 60) :
    (tdRow0 specFonts stA b).x = (tdRow0 specFonts stB b).x ∧
    (tdRow0 specFonts stA b).tr.countP isColon = 1 ∧
    (tdRow0 specFonts stB b).tr.countP isColon = 0 ∧
    ((tdRow0 specFonts stA b).tr.filter (fun d => !isColon d)).map posOf =
      ((tdRow0 specFonts stB b).tr.filter (fun d => !isColon d)).map posOf := by
  have hdh : displayHoursOf stA = displayHoursOf stB := by
    unfold displayHoursOf
    rw [hu, hh, hh24]
  unfold tdRow0
  rw [hdh, hm]
  set H := segPlain 0 specFonts.digits5x8rn 0 (fmtDec (displayHoursOf stB))
    { buf := b, x := 0, tr := [] } with hHdef
  obtain ⟨_, dH, hHtr, _, hHmem⟩ := segPlain_shape 0 specFonts.digits5x8rn 0
    (fmtDec (displayHoursOf stB))
    { buf := b, x := 0, tr := [] } { buf := b, x := 0, tr := [] } rfl
  rw [← hHdef] at hHtr
  simp only [List.nil_append] at hHtr
  have hCA := colonStep_shown 0 specFonts.digits5x8rn 1 2 (stA.seconds % 2 = 0) hsA H
  have hCB := colonStep_hidden 0 specFonts.digits5x8rn 1 2 (stB.seconds % 2 = 0) (by omega) H
  rw [hCA, hCB]
  have hw58 : drawCharW 58 specFonts.digits5x8rn = 1 := by decide
  set CA : SegSt := { buf := (drawCharWithY H.x 0 58 specFonts.digits5x8rn H.buf).1,
                      x := H.x + (drawCharW 58 specFonts.digits5x8rn : Int) + 1,
                      tr := H.tr ++ [⟨H.x, 0, 58, 0⟩] } with hCAdef
  set CB : SegSt := { H with x := H.x + 2 } with hCBdef
  have hxC : CA.x = CB.x := by
    rw [hCAdef, hCBdef]
    show H.x + (drawCharW 58 specFonts.digits5x8rn : Int) + 1 = H.x + 2
    rw [hw58]
    omega
  obtain ⟨hxM, dM, hMa, hMb, hMmem⟩ := segPlain_shape 0 specFonts.digits5x8rn 0
    (fmt02 stB.minutes) CA CB hxC
  have hwmap : (fmt02 stA.seconds).map (fun c => drawCharW c specFonts.digits3x5) =
      (fmt02 stB.seconds).map (fun c => drawCharW c specFonts.digits3x5) :=
    (fmt02_w_d3x5 stA.seconds (by omega)).trans (fmt02_w_d3x5 stB.seconds (by omega)).symm
  obtain ⟨hxS, dS1, dS2, hSa, hSb, hSpos, hSm1, hSm2⟩ :=
    segGuard29b_shape2 1 specFonts.digits3x5 0 (fmt02 stA.seconds) (fmt02 stB.seconds)
      { segPlain 0 specFonts.digits5x8rn 0 (fmt02 stB.minutes) CA with
        x := (segPlain 0 specFonts.digits5x8rn 0 (fmt02 stB.minutes) CA).x + 1 }
      { segPlain 0 specFonts.digits5x8rn 0 (fmt02 stB.minutes) CB with
        x := (segPlain 0 specFonts.digits5x8rn 0 (fmt02 stB.minutes) CB).x + 1 }
      (by show _ + 1 = _ + 1; rw [hxM]) hwmap
  have hCAtr : CA.tr = H.tr ++ [⟨H.x, 0, 58, 0⟩] := rfl
  have hCBtr : CB.tr = H.tr := rfl
  have hdHdig : ∀ e ∈ dH, 48 ≤ e.c ∧ e.c ≤ 57 := by
    intro e he
    exact fmtDec_digits (displayHoursOf stB) e.c (hHmem e he).1
  have hdMdig : ∀ e ∈ dM, 48 ≤ e.c ∧ e.c ≤ 57 := by
    intro e he
    exact fmt02_digits stB.minutes e.c (hMmem e he).1
  have hdS1dig : ∀ e ∈ dS1, 48 ≤ e.c ∧ e.c ≤ 57 := by
    intro e he
    exact fmt02_digits stA.seconds e.c (hSm1 e he).1
  have hdS2dig : ∀ e ∈ dS2, 48 ≤ e.c ∧ e.c ≤ 57 := by
    intro e he
    exact fmt02_digits stB.seconds e.c (hSm2 e he).1
  have hAtr : (segGuard29b 1 specFonts.digits3x5 0 (fmt02 stA.seconds)
      { segPlain 0 specFonts.digits5x8rn 0 (fmt02 stB.minutes) CA with
        x := (segPlain 0 specFonts.digits5x8rn 0 (fmt02 stB.minutes) CA).x + 1 }).tr =
      ((dH ++ [⟨H.x, 0, 58, 0⟩]) ++ dM) ++ dS1 := by
    rw [hSa]
    show (segPlain 0 specFonts.digits5x8rn 0 (fmt02 stB.minutes) CA).tr ++ dS1 = _
    rw [hMa, hCAtr, hHtr]
  have hBtr : (segGuard29b 1 specFonts.digits3x5 0 (fmt02 stB.seconds)
      { segPlain 0 specFonts.digits5x8rn 0 (fmt02 stB.minutes) CB with
        x := (segPlain 0 specFonts.digits5x8rn 0 (fmt02 stB.minutes) CB).x + 1 }).tr =
      (dH ++ dM) ++ dS2 := by
    rw [hSb]
    show (segPlain 0 specFonts.digits5x8rn 0 (fmt02 stB.minutes) CB).tr ++ dS2 = _
    rw [hMb, hCBtr, hHtr]
  refine ⟨hxS, ?_, ?_, ?_⟩
  · rw [hAtr]
    simp only [List.countP_append]
    rw [(nonColon_of_digit hdHdig).1, (nonColon_of_digit hdMdig).1,
      (nonColon_of_digit hdS1dig).1]
    simp [isColon, List.countP_cons]
  · rw [hBtr]
    simp only [List.countP_append]
    rw [(nonColon_of_digit hdHdig).1, (nonColon_of_digit hdMdig).1,
      (nonColon_of_digit hdS2dig).1]
  · rw [hAtr, hBtr]
    simp only [List.filter_append]
    rw [(nonColon_of_digit hdHdig).2, (nonColon_of_digit hdMdig).2,
      (nonColon_of_digit hdS1dig).2, (nonColon_of_digit hdS2dig).2]
    have hcolonF : List.filter (fun d => !isColon d) [(⟨H.x, 0, 58, 0⟩ : DrawCall)] = [] := by
      simp [isColon]
    rw [hcolonF]
    simp only [List.append_nil, List.map_append]
    rw [hSpos]

/-- C6: in each layout routine's time row the colon glyph is drawn exactly
when second mod 2 = 0 (one colon call when even, none when odd), and
across two runs differing only in the parity of the second field the
positions of all non-colon glyph draws and the total horizontal advance
are identical, so digit positions after the colon do not shift. -/
theorem claim_C6 (st : ClockState) (b : Buf) (s1 s2 : Nat)
    (h1 : s1 < 60) (h2 : s2 < 60) (hp1 : s1 % 2 = 0) (hp2 : s2 % 2 = 1) :
    ((ttRow0 specFonts { st with seconds := s1 } b).x =
        (ttRow0 specFonts { st with seconds := s2 } b).x ∧
      (ttRow0 specFonts { st with seconds := s1 } b).tr.countP isColon = 1 ∧
      (ttRow0 specFonts { st with seconds := s2 } b).tr.countP isColon = 0 ∧
      ((ttRow0 specFonts { st with seconds := s1 } b).tr.filter
          (fun d => !isColon d)).map posOf =
        ((ttRow0 specFonts { st with seconds := s2 } b).tr.filter
          (fun d => !isColon d)).map posOf) ∧
    ((tlRow specFonts { st with seconds := s1 } b).x =
        (tlRow specFonts { st with seconds := s2 } b).x ∧
      (tlRow specFonts { st with seconds := s1 } b).tr.countP isColon = 1 ∧
      (tlRow specFonts { st with seconds := s2 } b).tr.countP isColon = 0 ∧
      ((tlRow specFonts { st with seconds := s1 } b).tr.filter
          (fun d => !isColon d)).map posOf =
        ((tlRow specFonts { st with seconds := s2 } b).tr.filter
          (fun d => !isColon d)).map posOf) ∧
    ((tdRow0 specFonts { st with seconds := s1 } b).x =
        (tdRow0 specFonts { st with seconds := s2 } b).x ∧
      (tdRow0 specFonts { st with seconds := s1 } b).tr.countP isColon = 1 ∧
      (tdRow0 specFonts { st with seconds := s2 } b).tr.countP isColon = 0 ∧
      ((tdRow0 specFonts { st with seconds := s1 } b).tr.filter
          (fun d => !isColon d)).map posOf =
        ((tdRow0 specFonts { st with seconds := s2 } b).tr.filter
          (fun d => !isColon d)).map posOf) := by
  refine ⟨?_, ?_, ?_⟩
  · exact ttRow0_parity { st with seconds := s1 } { st with seconds := s2 } b
      rfl rfl rfl rfl hp1 hp2 h1 h2
  · exact tlRow_parity { st with seconds := s1 } { st with seconds := s2 } b
      rfl rfl rfl rfl hp1 hp2 h1 h2
  · exact tdRow0_parity { st with seconds := s1 } { st with seconds := s2 } b
      rfl rfl rfl rfl hp1 hp2 h1 h2

/-- Witness for C6 at seconds 0 versus 1 from the startup state. -/
theorem claim_C6_witness :
    ((0 : Nat) < 60 ∧ (1 : Nat) < 60 ∧ (0 : Nat) % 2 = 0 ∧ (1 : Nat) % 2 = 1) ∧
      ((ttRow0 specFonts { initialState with seconds := 0 } (fun _ => 0)).x =
        (ttRow0 specFonts { initialState with seconds := 1 } (fun _ => 0)).x ∧
      (ttRow0 specFonts { initialState with seconds := 0 } (fun _ => 0)).tr.countP isColon = 1 ∧
      (ttRow0 specFonts { initialState with seconds := 1 } (fun _ => 0)).tr.countP isColon = 0 ∧
      ((ttRow0 specFonts { initialState with seconds := 0 } (fun _ => 0)).tr.filter
          (fun d => !isColon d)).map posOf =
        ((ttRow0 specFonts { initialState with seconds := 1 } (fun _ => 0)).tr.filter
          (fun d => !isColon d)).map posOf) :=
  ⟨⟨by decide, by decide, by decide, by decide⟩,
   (claim_C6 initialState (fun _ => 0) 0 1 (by decide) (by decide) (by decide) (by decide)).1⟩

lemma segPlain_single (fid : Nat) (font : List Nat) (yPos : Int) (c : Nat) (a : SegSt) :
    segPlain fid font yPos [c] a =
      { buf := (drawCharWithY a.x yPos c font a.buf).1,
        x := a.x + (drawCharW c font : Int),
        tr := a.tr ++ [⟨a.x, yPos, c, fid⟩] } := by
  simp only [segPlain, drawCharWithY_snd]

lemma segPlain_pair (fid : Nat) (font : List Nat) (yPos : Int) (c1 c2 : Nat) (a : SegSt) :
    (segPlain fid font yPos [c1, c2] a).x =
      a.x + (drawCharW c1 font : Int) + 1 + (drawCharW c2 font : Int) ∧
    (segPlain fid font yPos [c1, c2] a).tr =
      a.tr ++ [⟨a.x, yPos, c1, fid⟩,
        ⟨a.x + (drawCharW c1 font : Int) + 1, yPos, c2, fid⟩] := by
  simp only [segPlain, drawCharWithY_snd]
  simp

lemma segGuard29_pair (fid : Nat) (font : List Nat) (yPos : Int) (c1 c2 : Nat) (a : SegSt)
    (h1 : a.x < 29) (h2 : a.x + (drawCharW c1 font : Int) < 32)
    (h3 : a.x + (drawCharW c1 font : Int) + 1 < 29) :
    (segGuard29 fid font yPos [c1, c2] a).x =
      a.x + (drawCharW c1 font : Int) + 1 + (drawCharW c2 font : Int) ∧
    (segGuard29 fid font yPos [c1, c2] a).tr =
      a.tr ++ [⟨a.x, yPos, c1, fid⟩,
        ⟨a.x + (drawCharW c1 font : Int) + 1, yPos, c2, fid⟩] := by
  simp only [segGuard29, drawCharWithY_snd]
  rw [if_pos h1]
  rw [if_pos (show [c2] ≠ [] ∧ a.x + (drawCharW c1 font : Int) < 32 from ⟨by simp, h2⟩)]
  rw [if_pos h3]
  rw [if_neg (show ¬(([] : List Nat) ≠ [] ∧
    a.x + (drawCharW c1 font : Int) + 1 + (drawCharW c2 font : Int) < 32) by simp)]
  constructor
  · rfl
  · simp

lemma segPlain_chars (fid : Nat) (font : List Nat) (yPos : Int) :
    ∀ (cs : List Nat) (a : SegSt),
      (segPlain fid font yPos cs a).tr.map (fun d => d.c) =
        a.tr.map (fun d => d.c) ++ cs := by
  intro cs
  induction cs with
  | nil => intro a; simp [segPlain]
  | cons c rest ih =>
    intro a
    cases rest with
    | nil =>
      rw [segPlain_single]
      simp
    | cons c2 rest2 =>
      simp only [segPlain]
      rw [ih]
      simp

lemma ttRow0_no_seconds (st : ClockState) (b : Buf)
    (hu : st.use24HourFormat = true) (hh : 10 ≤ st.hours24) :
    (ttRow0 specFonts st b).tr.filter (fun d => d.fid == 1) = [] := by
  have hcs : canShowSeconds st = false := by
    unfold canShowSeconds
    rw [hu]
    simp [hh]
  unfold ttRow0 ttSecondsBlock
  rw [hcs]
  rw [if_neg (by simp : ¬(false = true))]
  set H := segPlain 0 specFonts.digits5x8rn 0 (fmtDec (displayHoursOf st))
    { buf := b, x := 0, tr := [] } with hHdef
  obtain ⟨_, dH, hHtr, _, hHmem⟩ := segPlain_shape 0 specFonts.digits5x8rn 0
    (fmtDec (displayHoursOf st))
    { buf := b, x := 0, tr := [] } { buf := b, x := 0, tr := [] } rfl
  rw [← hHdef] at hHtr
  simp only [List.nil_append] at hHtr
  by_cases hpar : st.seconds % 2 = 0
  · rw [colonStep_shown 0 specFonts.digits5x8rn 1 2 (st.seconds % 2 = 0) hpar H]
    set CA : SegSt := { buf := (drawCharWithY H.x 0 58 specFonts.digits5x8rn H.buf).1,
                        x := H.x + (drawCharW 58 specFonts.digits5x8rn : Int) + 1,
                        tr := H.tr ++ [⟨H.x, 0, 58, 0⟩] } with hCAdef
    obtain ⟨_, dM, hMa, _, hMmem⟩ := segPlain_shape 0 specFonts.digits5x8rn 0
      (fmt02 st.minutes) CA CA rfl
    rw [hMa]
    have hCAtr : CA.tr = H.tr ++ [⟨H.x, 0, 58, 0⟩] := rfl
    rw [hCAtr, hHtr]
    apply List.filter_eq_nil_iff.mpr
    intro e he
    simp only [List.append_assoc, List.mem_append, List.mem_singleton] at he
    rcases he with h1 | h1 | h1
    · have hf := (hHmem e h1).2
      simp [hf]
    · subst h1
      simp
    · have hf := (hMmem e h1).2
      simp [hf]
  · rw [colonStep_hidden 0 specFonts.digits5x8rn 1 2 (st.seconds % 2 = 0) hpar H]
    set CB : SegSt := { H with x := H.x + 2 } with hCBdef
    obtain ⟨_, dM, hMa, _, hMmem⟩ := segPlain_shape 0 specFonts.digits5x8rn 0
      (fmt02 st.minutes) CB CB rfl
    rw [hMa]
    have hCBtr : CB.tr = H.tr := rfl
    rw [hCBtr, hHtr]
    apply List.filter_eq_nil_iff.mpr
    intro e he
    simp only [List.mem_append] at he
    rcases he with h1 | h1
    · have hf := (hHmem e h1).2
      simp [hf]
    · have hf := (hMmem e h1).2
      simp [hf]

lemma ttRow0_with_seconds (st : ClockState) (b : Buf)
    (hu : st.use24HourFormat = true) (hh : st.hours24 ≤ 9)
    (hm : st.minutes < 60) (hs : st.seconds < 60) :
    ((ttRow0 specFonts st b).tr.filter (fun d => d.fid == 1)).map (fun d => d.c) =
      fmt02 st.seconds := by
  have hdh : displayHoursOf st = st.hours24 := by
    unfold displayHoursOf
    rw [hu]
    simp
  have hcs : canShowSeconds st = true := by
    unfold canShowSeconds
    rw [hu]
    simp
    omega
  have dw58 : ∀ c : Nat, 48 ≤ c → c ≤ 57 → drawCharW c specFonts.digits5x8rn = 5 := by
    intro c h1 h2
    show drawCharW c digits5x8rnSpec = 5
    exact dw_d58_digit c h1 h2
  have dw35 : ∀ c : Nat, 48 ≤ c → c ≤ 57 → drawCharW c specFonts.digits3x5 = 3 := by
    intro c h1 h2
    show drawCharW c digits3x5Spec = 3
    exact dw_d3x5_digit c h1 h2
  obtain ⟨m1, m2, hmsplit, hmb1, hmb2, hmb3, hmb4⟩ := fmt02_cases st.minutes (by omega)
  obtain ⟨e1, e2, hssplit, hsb1, hsb2, hsb3, hsb4⟩ := fmt02_cases st.seconds (by omega)
  unfold ttRow0
  rw [hdh, fmtDec_small st.hours24 (by omega), hmsplit]
  set H := segPlain 0 specFonts.digits5x8rn 0 [48 + st.hours24]
    { buf := b, x := 0, tr := [] } with hHdef
  have hHx : H.x = 5 := by
    rw [hHdef, segPlain_single]
    show (0 : Int) + (drawCharW (48 + st.hours24) specFonts.digits5x8rn : Int) = 5
    rw [dw58 (48 + st.hours24) (by omega) (by omega)]
    norm_num
  have hHtr : H.tr = [⟨0, 0, 48 + st.hours24, 0⟩] := by
    rw [hHdef, segPlain_single]
    show ([] : List DrawCall) ++ [⟨(0 : Int), 0, 48 + st.hours24, 0⟩] = _
    simp
  by_cases hpar : st.seconds % 2 = 0
  · rw [colonStep_shown 0 specFonts.digits5x8rn 1 2 (st.seconds % 2 = 0) hpar H]
    set CA : SegSt := { buf := (drawCharWithY H.x 0 58 specFonts.digits5x8rn H.buf).1,
                        x := H.x + (drawCharW 58 specFonts.digits5x8rn : Int) + 1,
                        tr := H.tr ++ [⟨H.x, 0, 58, 0⟩] } with hCAdef
    have hCx : CA.x = 7 := by
      rw [hCAdef]
      show H.x + (drawCharW 58 specFonts.digits5x8rn : Int) + 1 = 7
      rw [hHx]
      decide
    have hA3x : (segPlain 0 specFonts.digits5x8rn 0 [m1, m2] CA).x = 18 := by
      rw [(segPlain_pair 0 specFonts.digits5x8rn 0 m1 m2 CA).1,
        dw58 m1 hmb1 hmb2, dw58 m2 hmb3 hmb4, hCx]
      norm_num
    have hA3tr : (segPlain 0 specFonts.digits5x8rn 0 [m1, m2] CA).tr =
        CA.tr ++ [⟨CA.x, 0, m1, 0⟩, ⟨CA.x + (drawCharW m1 specFonts.digits5x8rn : Int) + 1, 0, m2, 0⟩] :=
      (segPlain_pair 0 specFonts.digits5x8rn 0 m1 m2 CA).2
    have hg1 : SegSt.x { segPlain 0 specFonts.digits5x8rn 0 [m1, m2] CA with
        x := (segPlain 0 specFonts.digits5x8rn 0 [m1, m2] CA).x + 1 } < 29 := by
      show (segPlain 0 specFonts.digits5x8rn 0 [m1, m2] CA).x + 1 < 29
      rw [hA3x]
      norm_num
    have hg2 : SegSt.x { segPlain 0 specFonts.digits5x8rn 0 [m1, m2] CA with
        x := (segPlain 0 specFonts.digits5x8rn 0 [m1, m2] CA).x + 1 } +
        (drawCharW e1 specFonts.digits3x5 : Int) < 32 := by
      show (segPlain 0 specFonts.digits5x8rn 0 [m1, m2] CA).x + 1 +
        (drawCharW e1 specFonts.digits3x5 : Int) < 32
      rw [hA3x, dw35 e1 hsb1 hsb2]
      norm_num
    have hg3 : SegSt.x { segPlain 0 specFonts.digits5x8rn 0 [m1, m2] CA with
        x := (segPlain 0 specFonts.digits5x8rn 0 [m1, m2] CA).x + 1 } +
        (drawCharW e1 specFonts.digits3x5 : Int) + 1 < 29 := by
      show (segPlain 0 specFonts.digits5x8rn 0 [m1, m2] CA).x + 1 +
        (drawCharW e1 specFonts.digits3x5 : Int) + 1 < 29
      rw [hA3x, dw35 e1 hsb1 hsb2]
      norm_num
    have hblock : (ttSecondsBlock specFonts st
        (segPlain 0 specFonts.digits5x8rn 0 [m1, m2] CA)).tr =
        (segPlain 0 specFonts.digits5x8rn 0 [m1, m2] CA).tr ++
          [⟨(segPlain 0 specFonts.digits5x8rn 0 [m1, m2] CA).x + 1, 0, e1, 1⟩,
           ⟨(segPlain 0 specFonts.digits5x8rn 0 [m1, m2] CA).x + 1 +
             (drawCharW e1 specFonts.digits3x5 : Int) + 1, 0, e2, 1⟩] := by
      unfold ttSecondsBlock
      rw [hcs]
      simp only [eq_self_iff_true, if_true]
      rw [if_pos (show SegSt.x { segPlain 0 specFonts.digits5x8rn 0 [m1, m2] CA with
          x := (segPlain 0 specFonts.digits5x8rn 0 [m1, m2] CA).x + 1 } + 7 ≤ 32 by
        show (segPlain 0 specFonts.digits5x8rn 0 [m1, m2] CA).x + 1 + 7 ≤ 32
        rw [hA3x]
        norm_num)]
      rw [hssplit]
      rw [(segGuard29_pair 1 specFonts.digits3x5 0 e1 e2
        { segPlain 0 specFonts.digits5x8rn 0 [m1, m2] CA with
          x := (segPlain 0 specFonts.digits5x8rn 0 [m1, m2] CA).x + 1 } hg1 hg2 hg3).2]
    rw [hblock, hA3tr]
    have hCAtr : CA.tr = H.tr ++ [⟨H.x, 0, 58, 0⟩] := rfl
    rw [hCAtr, hHtr]
    simp only [List.append_assoc, List.filter_append, List.map_append]
    simp [hssplit]
  · rw [colonStep_hidden 0 specFonts.digits5x8rn 1 2 (st.seconds % 2 = 0) hpar H]
    set CB : SegSt := { H with x := H.x + 2 } with hCBdef
    have hCx : CB.x = 7 := by
      rw [hCBdef]
      show H.x + 2 = 7
      rw [hHx]
      norm_num
    have hA3x : (segPlain 0 specFonts.digits5x8rn 0 [m1, m2] CB).x = 18 := by
      rw [(segPlain_pair 0 specFonts.digits5x8rn 0 m1 m2 CB).1,
        dw58 m1 hmb1 hmb2, dw58 m2 hmb3 hmb4, hCx]
      norm_num
    have hA3tr : (segPlain 0 specFonts.digits5x8rn 0 [m1, m2] CB).tr =
        CB.tr ++ [⟨CB.x, 0, m1, 0⟩, ⟨CB.x + (drawCharW m1 specFonts.digits5x8rn : Int) + 1, 0, m2, 0⟩] :=
      (segPlain_pair 0 specFonts.digits5x8rn 0 m1 m2 CB).2
    have hg1 : SegSt.x { segPlain 0 specFonts.digits5x8rn 0 [m1, m2] CB with
        x := (segPlain 0 specFonts.digits5x8rn 0 [m1, m2] CB).x + 1 } < 29 := by
      show (segPlain 0 specFonts.digits5x8rn 0 [m1, m2] CB).x + 1 < 29
      rw [hA3x]
      norm_num
    have hg2 : SegSt.x { segPlain 0 specFonts.digits5x8rn 0 [m1, m2] CB with
        x := (segPlain 0 specFonts.digits5x8rn 0 [m1, m2] CB).x + 1 } +
        (drawCharW e1 specFonts.digits3x5 : Int) < 32 := by
      show (segPlain 0 specFonts.digits5x8rn 0 [m1, m2] CB).x + 1 +
        (drawCharW e1 specFonts.digits3x5 : Int) < 32
      rw [hA3x, dw35 e1 hsb1 hsb2]
      norm_num
    have hg3 : SegSt.x { segPlain 0 specFonts.digits5x8rn 0 [m1, m2] CB with
        x := (segPlain 0 specFonts.digits5x8rn 0 [m1, m2] CB).x + 1 } +
        (drawCharW e1 specFonts.digits3x5 : Int) + 1 < 29 := by
      show (segPlain 0 specFonts.digits5x8rn 0 [m1, m2] CB).x + 1 +
        (drawCharW e1 specFonts.digits3x5 : Int) + 1 < 29
      rw [hA3x, dw35 e1 hsb1 hsb2]
      norm_num
    have hblock : (ttSecondsBlock specFonts st
        (segPlain 0 specFonts.digits5x8rn 0 [m1, m2] CB)).tr =
        (segPlain 0 specFonts.digits5x8rn 0 [m1, m2] CB).tr ++
          [⟨(segPlain 0 specFonts.digits5x8rn 0 [m1, m2] CB).x + 1, 0, e1, 1⟩,
           ⟨(segPlain 0 specFonts.digits5x8rn 0 [m1, m2] CB).x + 1 +
             (drawCharW e1 specFonts.digits3x5 : Int) + 1, 0, e2, 1⟩] := by
      unfold ttSecondsBlock
      rw [hcs]
      simp only [eq_self_iff_true, if_true]
      rw [if_pos (show SegSt.x { segPlain 0 specFonts.digits5x8rn 0 [m1, m2] CB with
          x := (segPlain 0 specFonts.digits5x8rn 0 [m1, m2] CB).x + 1 } + 7 ≤ 32 by
        show (segPlain 0 specFonts.digits5x8rn 0 [m1, m2] CB).x + 1 + 7 ≤ 32
        rw [hA3x]
        norm_num)]
      rw [hssplit]
      rw [(segGuard29_pair 1 specFonts.digits3x5 0 e1 e2
        { segPlain 0 specFonts.digits5x8rn 0 [m1, m2] CB with
          x := (segPlain 0 specFonts.digits5x8rn 0 [m1, m2] CB).x + 1 } hg1 hg2 hg3).2]
    rw [hblock, hA3tr]
    have hCBtr : CB.tr = H.tr := rfl
    rw [hCBtr, hHtr]
    simp only [List.append_assoc, List.filter_append, List.map_append]
    simp [hssplit]

/-- Concrete 24-hour state with hour 23 for the C3 witness. -/
def c3StateHigh : ClockState :=
  { initialState with use24HourFormat := true, hours24 := 23, minutes := 5, seconds := 7 }

/-- Concrete 24-hour state with hour 9 for the C3 witness. -/
def c3StateLow : ClockState :=
  { initialState with use24HourFormat := true, hours24 := 9, minutes := 5, seconds := 7 }

/-- C3: in 12-hour mode the hour shown is hoursFrom24 of the wall-clock hour,
so hour 0 renders as the two digits of 12 and hour 13 as the single digit 1
with no leading zero; and on the Time+Environment screen in 24-hour mode the
seconds digits (the only calls using the small seconds font, fid 1) are
omitted entirely when the hour is at least 10 and are exactly the two
zero-padded seconds digits when the hour is at most 9. -/
theorem claim_C3 (st : ClockState) (b : Buf) (hu : st.use24HourFormat = true)
    (hm : st.minutes < 60) (hs : st.seconds < 60) :
    hoursFrom24 0 = 12 ∧ fmtDec (hoursFrom24 0) = [49, 50] ∧
    hoursFrom24 13 = 1 ∧ fmtDec (hoursFrom24 13) = [49] ∧
    (10 ≤ st.hours24 →
      (ttRow0 specFonts st b).tr.filter (fun d => d.fid == 1) = []) ∧
    (st.hours24 ≤ 9 →
      ((ttRow0 specFonts st b).tr.filter (fun d => d.fid == 1)).map (fun d => d.c) =
        fmt02 st.seconds) := by
  refine ⟨by decide, by decide, by decide, by decide, ?_, ?_⟩
  · intro hge
    exact ttRow0_no_seconds st b hu hge
  · intro hle
    exact ttRow0_with_seconds st b hu hle hm hs

/-- Witness for C3 at hour 23 (seconds omitted) and hour 9 (seconds shown). -/
theorem claim_C3_witness :
    ((ttRow0 specFonts c3StateHigh (fun _ => 0)).tr.filter (fun d => d.fid == 1) = []) ∧
    (((ttRow0 specFonts c3StateLow (fun _ => 0)).tr.filter (fun d => d.fid == 1)).map
        (fun d => d.c) = fmt02 c3StateLow.seconds) :=
  ⟨(claim_C3 c3StateHigh (fun _ => 0) (by decide) (by decide) (by decide)).2.2.2.2.1
      (by decide),
   (claim_C3 c3StateLow (fun _ => 0) (by decide) (by decide) (by decide)).2.2.2.2.2
      (by decide)⟩
